import Mathlib

/-!
# Verification of the segregated-free-list allocator (`mm.c`)

Shallow embedding of `src/CSE4009_System_Programming/assignment2/mm.c`.

The C program manipulates a flat 32-bit address space through the macros
`GET`/`PUT` (word reads and writes), `HDRP`/`FTRP`/`PREV_BLKP`/`NEXT_BLKP`
(boundary-tag address arithmetic), and two globals `HeapBlocks` and
`FreeBlocks`.  We model memory as a function from byte addresses to the
32-bit word stored at that address; every read is reduced modulo `2^32`
and every write stores its value modulo `2^32`, matching `unsigned int`
cells.  Pointers are byte addresses (`Nat`); the null pointer is `0`.
`mem_sbrk` (the heap-growth collaborator from `memlib.c`, not part of the
repository sources) extends the break and returns the old break, and in
this model never fails.  Unsigned `size_t` subtraction, which can wrap,
is modelled by `csub`; additions of two sizes are reduced `% 2^32` where
the C program adds `size_t` values.

Loops: the two size-class loops in `free_list_insert` and `find_fit` are
bounded by `ClassSize - 1` iterations in the source (`size_class <
ClassSize - 1` is part of the guard), so they are embedded structurally
with that exact bound (`classLoop`).  The free-list traversal in
`find_fit` has no syntactic bound, so it takes an explicit fuel
parameter; `none` means the fuel ran out before the C loop finished, and
all theorems about `find_fit`/`mm_malloc`/`mm_realloc` are stated for
executions that complete (`some _`).
-/

namespace MM

/-- `2^32`, the modulus of `unsigned int` / 32-bit `size_t` arithmetic. -/
def W32 : Nat := 4294967296

/-- `#define WSIZE 4` -/
def WSIZE : Nat := 4
/-- `#define DSIZE 8` -/
def DSIZE : Nat := 8
/-- `#define CHUNKSIZE (1<<12)` -/
def CHUNKSIZE : Nat := 4096
/-- `#define ClassSize 17` -/
def ClassSize : Nat := 17
/-- `#define BLOCKSIZE (4*WSIZE)` -/
def BLOCKSIZE : Nat := 16

/-- The allocator state: the word at each byte address, the current break
of the growable region, its start (`base`, the first break), the two
globals set by `mm_init`, and a counter of warnings printed by
`free_list_remove` (the `printf` on its double-free path). -/
structure Heap where
  mem : Nat → Nat
  brk : Nat
  base : Nat
  freeBlocks : Nat
  heapBlocks : Nat
  warn : Nat

/-- `#define GET(p) (*(unsigned int *) (p))` — a 32-bit cell read. -/
def GET (h : Heap) (p : Nat) : Nat := h.mem p % W32

/-- `#define PUT(p, val) (*(unsigned int *) (p) = (val))` -/
def PUT (h : Heap) (p v : Nat) : Heap :=
  { h with mem := fun a => if a = p then v % W32 else h.mem a }

/-- `#define PACK(size, alloc) ((size) | (alloc))` -/
def PACK (size alloc : Nat) : Nat := size ||| alloc

/-- `#define GET_SIZE(p) (GET(p) & ~0x7)` (`~0x7` on `unsigned int`). -/
def GET_SIZE (h : Heap) (p : Nat) : Nat := GET h p &&& 0xFFFFFFF8

/-- `#define GET_ALLOC(p) (GET(p) & 0x1)` -/
def GET_ALLOC (h : Heap) (p : Nat) : Nat := GET h p &&& 0x1

/-- `#define HDRP(bp) ((char *) (bp) - WSIZE)` -/
def HDRP (bp : Nat) : Nat := bp - WSIZE

/-- `#define FTRP(bp) ((char *) (bp) + GET_SIZE(HDRP(bp)) - DSIZE)` -/
def FTRP (h : Heap) (bp : Nat) : Nat := bp + GET_SIZE h (HDRP bp) - DSIZE

/-- `#define PREV_BLKP(bp) ((char *)(bp) - GET_SIZE(((char *)(bp) - DSIZE)))` -/
def PREV_BLKP (h : Heap) (bp : Nat) : Nat := bp - GET_SIZE h (bp - DSIZE)

/-- `#define NEXT_BLKP(bp) ((char *)(bp) + GET_SIZE(HDRP(bp)))` -/
def NEXT_BLKP (h : Heap) (bp : Nat) : Nat := bp + GET_SIZE h (HDRP bp)

/-- 32-bit unsigned subtraction `a - b` (wraps modulo `2^32`);
faithful for operands `< 2^32`. -/
def csub (a b : Nat) : Nat := (a + W32 - b) % W32

/-- `static void put_head_foot(void *bp, size_t size, int t)`:
`PUT(HDRP(bp), PACK(size, t)); PUT(FTRP(bp), PACK(size, t));` — note
that `FTRP` re-reads the header that the first `PUT` just wrote. -/
def put_head_foot (h : Heap) (bp size t : Nat) : Heap :=
  let h1 := PUT h (HDRP bp) (PACK size t)
  PUT h1 (FTRP h1 bp) (PACK size t)

/-- `static void put(void *bp, unsigned int t)`:
`PUT(p_to_char(bp), t); PUT(pAtC(bp), t);` — writes both link words. -/
def put (h : Heap) (bp t : Nat) : Heap :=
  PUT (PUT h bp t) (bp + WSIZE) t

/-- `mem_sbrk` from `memlib.c` (external collaborator): returns the old
break and advances the break; never fails in this model. -/
def mem_sbrk (h : Heap) (size : Nat) : Nat × Heap :=
  (h.brk, { h with brk := h.brk + size })

/-- The shared size-class loop of `free_list_insert` and `find_fit`:
`while (size > BLOCKSIZE && size_class < ClassSize - 1) { size_class++;
sumr += size % 2; size /= 2; }`.  The guard `size_class < ClassSize - 1`
bounds the loop by `ClassSize - 1` iterations, so it is embedded
structurally on the remaining iteration count `k = ClassSize - 1 -
size_class`; the result is `(size, size_class, sumr)`. -/
def classLoop : Nat → Nat → Nat → Nat → Nat × Nat × Nat
  | 0, size, cls, sumr => (size, cls, sumr)
  | k + 1, size, cls, sumr =>
    if BLOCKSIZE < size then classLoop k (size / 2) (cls + 1) (sumr + size % 2)
    else (size, cls, sumr)

/-- The size-class function: the loop above started at class 0, followed
by `if (size_class < ClassSize - 1 && sumr > 0 && size == BLOCKSIZE)
size_class++;` — identical code appears in `free_list_insert` and in
`find_fit`. -/
def sizeClass (size : Nat) : Nat :=
  let r := classLoop (ClassSize - 1) size 0 0
  if r.2.1 < ClassSize - 1 ∧ 0 < r.2.2 ∧ r.1 = BLOCKSIZE then r.2.1 + 1 else r.2.1

/-- `static void free_list_insert(void *bp)`: link `bp` at the head of
the bucket selected by the size-class of its header size.  The stored
prev pointer of a head block is the address of its bucket cell. -/
def free_list_insert (h : Heap) (bp : Nat) : Heap :=
  let size := GET_SIZE h (HDRP bp)
  let scp := h.freeBlocks + WSIZE * sizeClass size
  if GET h scp = 0 then
    let h1 := PUT h scp bp
    let h2 := PUT h1 bp scp
    PUT h2 (bp + WSIZE) 0
  else
    let h1 := PUT h bp scp
    let h2 := PUT h1 (bp + WSIZE) (GET h1 scp)
    let h3 := PUT h2 (GET h2 scp) bp
    PUT h3 scp bp

/-- The `pre` flag of `free_list_remove`: 1 (true) when the stored prev
pointer of `bp` is not a bucket-cell address — out of the bucket-array
range `[FreeBlocks, FreeBlocks + WSIZE*(ClassSize-1)]`, or misaligned
within it — i.e. the predecessor is a block, not a bucket head. -/
def preP (h : Heap) (bp : Nat) : Prop :=
  (h.freeBlocks + WSIZE * (ClassSize - 1) < GET h bp) ∨
  (GET h bp < h.freeBlocks) ∨
  ((h.freeBlocks + WSIZE * (ClassSize - 1) - GET h bp) % WSIZE ≠ 0)

instance (h : Heap) (bp : Nat) : Decidable (preP h bp) :=
  inferInstanceAs (Decidable (_ ∨ _ ∨ _))

/-- The `suc` flag of `free_list_remove`: the stored next pointer of
`bp` is non-null. -/
def sucP (h : Heap) (bp : Nat) : Prop := GET h (bp + WSIZE) ≠ 0

instance (h : Heap) (bp : Nat) : Decidable (sucP h bp) :=
  inferInstanceAs (Decidable (_ ≠ _))

/-- `static void free_list_remove(void *bp)`: unlink `bp`.  If the
block's header says it is allocated, print a warning and return. -/
def free_list_remove (h : Heap) (bp : Nat) : Heap :=
  if GET_ALLOC h (HDRP bp) ≠ 0 then
    { h with warn := h.warn + 1 }
  else
    let h9 :=
      if ¬ preP h bp ∧ sucP h bp then
        let h1 := PUT h (GET h bp) (GET h (bp + WSIZE))
        PUT h1 (GET h1 (bp + WSIZE)) (GET h1 bp)
      else if ¬ preP h bp ∧ ¬ sucP h bp then
        PUT h (GET h bp) (GET h (bp + WSIZE))
      else if preP h bp ∧ sucP h bp then
        let h1 := PUT h (GET h bp + WSIZE) (GET h (bp + WSIZE))
        PUT h1 (GET h1 (bp + WSIZE)) (GET h1 bp)
      else
        PUT h (GET h bp + WSIZE) 0
    PUT (PUT h9 bp 0) (bp + WSIZE) 0

/-- `static void *coalesce(void *bp)`: boundary-tag coalescing; returns
the (possibly moved) block pointer together with the new heap. -/
def coalesce (h : Heap) (bp : Nat) : Nat × Heap :=
  let prev_alloc := GET_ALLOC h (FTRP h (PREV_BLKP h bp))
  let next_alloc := GET_ALLOC h (HDRP (NEXT_BLKP h bp))
  let size := GET_SIZE h (HDRP bp)
  if prev_alloc ≠ 0 ∧ next_alloc ≠ 0 then
    (bp, h)
  else if prev_alloc ≠ 0 ∧ next_alloc = 0 then
    let h1 := free_list_remove h (NEXT_BLKP h bp)
    let size := (size + GET_SIZE h1 (HDRP (NEXT_BLKP h1 bp))) % W32
    let h2 := PUT h1 (HDRP bp) (PACK size 0)
    let h3 := PUT h2 (FTRP h2 bp) (PACK size 0)
    (bp, h3)
  else if prev_alloc = 0 ∧ next_alloc ≠ 0 then
    let h1 := free_list_remove h (PREV_BLKP h bp)
    let size := (size + GET_SIZE h1 (HDRP (PREV_BLKP h1 bp))) % W32
    let h2 := PUT h1 (FTRP h1 bp) (PACK size 0)
    let h3 := PUT h2 (HDRP (PREV_BLKP h2 bp)) (PACK size 0)
    (PREV_BLKP h3 bp, h3)
  else
    let h1 := free_list_remove h (PREV_BLKP h bp)
    let h2 := free_list_remove h1 (NEXT_BLKP h1 bp)
    let size := (size + GET_SIZE h2 (HDRP (PREV_BLKP h2 bp))
      + GET_SIZE h2 (FTRP h2 (NEXT_BLKP h2 bp))) % W32
    let h3 := PUT h2 (HDRP (PREV_BLKP h2 bp)) (PACK size 0)
    let h4 := PUT h3 (FTRP h3 (NEXT_BLKP h3 bp)) (PACK size 0)
    (PREV_BLKP h4 bp, h4)

/-- `void mm_free(void *bp)`: rewrite header/footer with `allocated=0`,
clear the two link words, coalesce, insert the result. -/
def mm_free (h : Heap) (bp : Nat) : Heap :=
  let size := GET_SIZE h (HDRP bp)
  let h1 := put_head_foot h bp size 0
  let h2 := put h1 bp 0
  let r := coalesce h2 bp
  free_list_insert r.2 r.1

/-- The free-list scan of one bucket in `find_fit`:
`while (bp != 0) { if (tmp_s <= GET_SIZE(HDRP(bp))) return bp;
bp = pAtC_GET(bp); }` with explicit fuel (`none` = fuel exhausted,
`some none` = bucket exhausted, `some (some bp)` = fit found). -/
def chainSearch (h : Heap) (tmp_s : Nat) : Nat → Nat → Option (Option Nat)
  | bp, fuel =>
    if bp = 0 then some none
    else match fuel with
      | 0 => none
      | fuel + 1 =>
        if tmp_s ≤ GET_SIZE h (HDRP bp) then some (some bp)
        else chainSearch h tmp_s (GET h (bp + WSIZE)) fuel

/-- The outer bucket loop of `find_fit`: `while (size_class < ClassSize)`,
embedded structurally on the remaining bucket count `r = ClassSize - sc`. -/
def classSearchAux (h : Heap) (tmp_s fuel : Nat) : Nat → Nat → Option (Option Nat)
  | 0, _ => some none
  | r + 1, sc =>
    match chainSearch h tmp_s (GET h (h.freeBlocks + WSIZE * sc)) fuel with
    | none => none
    | some (some bp) => some (some bp)
    | some none => classSearchAux h tmp_s fuel r (sc + 1)

/-- `static void *find_fit(size_t asize)`: compute the starting class of
`asize` (same loop as `free_list_insert`), then scan that bucket and all
larger buckets for the first block of size `≥ asize`. -/
def find_fit (h : Heap) (fuel asize : Nat) : Option (Option Nat) :=
  classSearchAux h asize fuel (ClassSize - sizeClass asize) (sizeClass asize)

/-- `static void place(void *bp, size_t asize)`: split if the leftover
is at least `BLOCKSIZE`, else allocate the whole block.  `csize - asize`
is unsigned 32-bit subtraction. -/
def place (h : Heap) (bp asize : Nat) : Heap :=
  let csize := GET_SIZE h (HDRP bp)
  if BLOCKSIZE ≤ csub csize asize then
    let h1 := free_list_remove h bp
    let h2 := PUT h1 (HDRP bp) (PACK asize 1)
    let h3 := PUT h2 (FTRP h2 bp) (PACK asize 1)
    let bp2 := NEXT_BLKP h3 bp
    let h4 := PUT h3 (HDRP bp2) (PACK (csub csize asize) 0)
    let h5 := PUT h4 (FTRP h4 bp2) (PACK (csub csize asize) 0)
    let h6 := PUT h5 bp2 0
    let h7 := PUT h6 (bp2 + WSIZE) 0
    free_list_insert h7 bp2
  else
    let h1 := free_list_remove h bp
    let h2 := PUT h1 (HDRP bp) (PACK csize 1)
    PUT h2 (FTRP h2 bp) (PACK csize 1)

/-- `static void *extend_heap(size_t words)`: grow by an even number of
words, write the free block's tags and the new epilogue, coalesce with a
free predecessor, insert, and return the block pointer. -/
def extend_heap (h : Heap) (words : Nat) : Nat × Heap :=
  let size := ((if words % 2 = 1 then words + 1 else words) * WSIZE) % W32
  let r := mem_sbrk h size
  let bp := r.1
  let h2 := PUT r.2 (HDRP bp) (PACK size 0)
  let h3 := PUT h2 (FTRP h2 bp) (PACK size 0)
  let h4 := PUT h3 (HDRP (NEXT_BLKP h3 bp)) (PACK 0 1)
  let c := coalesce h4 bp
  (c.1, free_list_insert c.2 c.1)

/-- The request-rounding of `mm_malloc`/`mm_realloc`:
`if (size > DSIZE) size2 = DSIZE * ((size + DSIZE + (DSIZE - 1)) / DSIZE);
else size2 = 2 * DSIZE;` (the sum is a `size_t` sum). -/
def roundSize (size : Nat) : Nat :=
  if DSIZE < size then DSIZE * (((size + DSIZE + (DSIZE - 1)) % W32) / DSIZE)
  else 2 * DSIZE

/-- `void *mm_malloc(size_t size)`: returns `none` if `find_fit` ran out
of fuel, otherwise `some (bp, heap)` where `bp = 0` models the `NULL`
returned for `size == 0` (`size <= 0` on `size_t` means `size == 0`). -/
def mm_malloc (h : Heap) (fuel size : Nat) : Option (Nat × Heap) :=
  if size = 0 then some (0, h)
  else
    let size2 := roundSize size
    match find_fit h fuel size2 with
    | none => none
    | some (some bp) => some (bp, place h bp size2)
    | some none =>
      let newSize := max size2 CHUNKSIZE
      let r := extend_heap h (newSize / WSIZE)
      some (r.1, place r.2 r.1 size2)

/-- `memset(HeapBlocks, 0, ClassSize*WSIZE)` — zero `n` words from `p`. -/
def memsetW (h : Heap) (p : Nat) : Nat → Heap
  | 0 => h
  | n + 1 => memsetW (PUT h p 0) (p + WSIZE) n

/-- `int mm_init(void)`: the initial break is `s0` (the start address the
growth collaborator hands out).  Allocates the bucket array plus
prologue/epilogue, zeroes the buckets, writes the sentinels, and seeds
the heap with a `CHUNKSIZE` extension.  Never fails in this model. -/
def mm_init (s0 : Nat) : Heap :=
  let h0 : Heap :=
    { mem := fun _ => 0, brk := s0, base := s0,
      freeBlocks := 0, heapBlocks := 0, warn := 0 }
  let r := mem_sbrk h0 (WSIZE * (ClassSize + 2 + 1))
  let p := r.1
  let h1 := memsetW r.2 p ClassSize
  let h2 := { h1 with freeBlocks := p, heapBlocks := p + ClassSize * WSIZE }
  let h3 := PUT h2 h2.heapBlocks (PACK DSIZE 1)
  let h4 := PUT h3 (h2.heapBlocks + 1 * WSIZE) (PACK DSIZE 1)
  let h5 := PUT h4 (h2.heapBlocks + 2 * WSIZE) (PACK 0 1)
  let h6 := { h5 with heapBlocks := h2.heapBlocks + 1 * WSIZE }
  (extend_heap h6 (CHUNKSIZE / WSIZE)).2

/-- `memcpy(newbp, oldbp, copy_size)` — word-wise copy of `n` words; in
every execution of interest `copy_size` is a multiple of the word size. -/
def memcpyW (h : Heap) (dst src : Nat) : Nat → Heap
  | 0 => h
  | n + 1 => memcpyW (PUT h dst (GET h src)) (dst + WSIZE) (src + WSIZE) n

/-- `void *mm_realloc(void *oldbp, size_t size)`.  Note: the source reads
`GET_SIZE(HDRP(oldbp))` on its first statement, before testing `oldbp ==
NULL`; in this total embedding the read is performed (and discarded on
the null branch).  `none` = `find_fit` fuel exhausted. -/
def mm_realloc (h : Heap) (fuel oldbp size : Nat) : Option (Nat × Heap) :=
  let old_size := GET_SIZE h (HDRP oldbp)
  if oldbp = 0 then mm_malloc h fuel size
  else if size = 0 then some (0, mm_free h oldbp)
  else
    let size2 := roundSize size
    if size2 = old_size then some (oldbp, h)
    else if old_size < size2 then
      let next_block := GET_SIZE h (HDRP (NEXT_BLKP h oldbp))
      if GET_ALLOC h (HDRP (NEXT_BLKP h oldbp)) = 0 ∧
          size2 ≤ next_block + old_size then
        let h1 := free_list_remove h (NEXT_BLKP h oldbp)
        some (oldbp, put_head_foot h1 oldbp ((old_size + next_block) % W32) 1)
      else
        match mm_malloc h fuel size with
        | none => none
        | some (newbp, h1) =>
          let copy_size := csub old_size DSIZE
          let h2 := memcpyW h1 newbp oldbp (copy_size / WSIZE)
          some (newbp, mm_free h2 oldbp)
    else
      if BLOCKSIZE ≤ old_size - size2 then
        let h1 := put_head_foot h oldbp size2 1
        let newbp := NEXT_BLKP h1 oldbp
        let h2 := put_head_foot h1 newbp (old_size - size2) 0
        let h3 := put h2 newbp 0
        some (oldbp, free_list_insert h3 newbp)
      else some (oldbp, h)

/-- A bounds-checked word read: fails outside the managed region
`[base, brk)`. -/
def GETc (h : Heap) (p : Nat) : Option Nat :=
  if h.base ≤ p ∧ p + WSIZE ≤ h.brk then some (GET h p) else none

/-- `mm_realloc` with its first memory access — the unguarded
`GET_SIZE(HDRP(oldbp))` read that the source performs before testing
`oldbp == NULL` — made bounds-checked; the rest of the call is the total
embedding.  `none` = that first read was out of bounds. -/
def mm_realloc_checked (h : Heap) (fuel oldbp size : Nat) :
    Option (Option (Nat × Heap)) :=
  match GETc h (HDRP oldbp) with
  | none => none
  | some _ => some (mm_realloc h fuel oldbp size)

/-! ### Specification-side definitions (written from the spec's words,
to be compared with the source embeddings above) -/

/-- Placement as §4.2 of the spec describes it: remove the candidate
from the index first; if the leftover `candidateSize - blockSize` is at
least the minimum block size, mark the first `blockSize` bytes allocated
(header at `bp - WSIZE`, footer at `bp + blockSize - DSIZE`, low bit
set) and reinsert the remainder at `bp + blockSize` as a new free block
with fresh header/footer and zeroed link fields; otherwise mark the
whole candidate allocated. -/
def placeSpec (h : Heap) (bp asize : Nat) : Heap :=
  let csize := GET_SIZE h (HDRP bp)
  let h1 := free_list_remove h bp
  if BLOCKSIZE ≤ csize - asize then
    let h2 := PUT h1 (bp - WSIZE) (asize + 1)
    let h3 := PUT h2 (bp + asize - DSIZE) (asize + 1)
    let rp := bp + asize
    let rsz := csize - asize
    let h4 := PUT h3 (rp - WSIZE) rsz
    let h5 := PUT h4 (rp + rsz - DSIZE) rsz
    let h6 := PUT h5 rp 0
    let h7 := PUT h6 (rp + WSIZE) 0
    free_list_insert h7 rp
  else
    PUT (PUT h1 (bp - WSIZE) (csize + 1)) (bp + csize - DSIZE) (csize + 1)

/-- `isChain h v l`: starting from the stored head pointer `v`, following
the next-links (`GET h (b + WSIZE)`) visits exactly the blocks of `l` and
ends at the null pointer.  This is the list abstraction of one bucket of
the segregated free-list index. -/
def isChain (h : Heap) : Nat → List Nat → Prop
  | v, [] => v = 0
  | v, b :: l => v = b ∧ b ≠ 0 ∧ isChain h (GET h (b + WSIZE)) l

instance isChainDec (h : Heap) : ∀ v l, Decidable (isChain h v l)
  | v, [] => inferInstanceAs (Decidable (v = 0))
  | v, b :: l =>
    haveI := isChainDec h (GET h (b + WSIZE)) l
    inferInstanceAs (Decidable (_ ∧ _ ∧ _))

/-- The whole free-list index abstracted as one list of blocks per
bucket. -/
def IndexAbs (h : Heap) (bs : Nat → List Nat) : Prop :=
  ∀ c, c < ClassSize → isChain h (GET h (h.freeBlocks + WSIZE * c)) (bs c)

instance (h : Heap) (bs : Nat → List Nat) : Decidable (IndexAbs h bs) :=
  inferInstanceAs (Decidable (∀ c, c < ClassSize → _))

/-- The first block of `l` whose size is at least `asize` (the spec's
first-fit rule). -/
def firstFit (h : Heap) (asize : Nat) : List Nat → Option Nat
  | [] => none
  | b :: l => if asize ≤ GET_SIZE h (HDRP b) then some b else firstFit h asize l

/-- The blocks of buckets `sc, sc+1, …, sc+r-1` in search order. -/
def bucketsAux (bs : Nat → List Nat) : Nat → Nat → List Nat
  | 0, _ => []
  | r + 1, sc => bs sc ++ bucketsAux bs r (sc + 1)

/-- `v` differs from every cell in `cs` (link-safety side conditions). -/
def AvoidList (v : Nat) (cs : List Nat) : Prop := ∀ c ∈ cs, v ≠ c

instance (v : Nat) (cs : List Nat) : Decidable (AvoidList v cs) :=
  inferInstanceAs (Decidable (∀ c ∈ cs, v ≠ c))

/-- `release` as §4.3 of the spec describes it: rewrite header and footer
with `allocated = 0`, clear the two link words; then, depending only on
the allocated bits of the previous block's footer (at `bp - DSIZE`) and
the next block's header (at `bp + size - WSIZE`), merge with no
neighbour, the next, the previous, or both — removing each absorbed
neighbour from the index, summing sizes, rewriting the merged block's
header/footer, and taking the previous block's address as start when the
previous is absorbed; finally insert exactly the one resulting block. -/
def releaseSpec (h : Heap) (bp : Nat) : Heap :=
  let size := GET_SIZE h (HDRP bp)
  let psz := GET_SIZE h (bp - DSIZE)
  let nsz := GET_SIZE h (bp + size - WSIZE)
  let pa := GET_ALLOC h (bp - DSIZE)
  let na := GET_ALLOC h (bp + size - WSIZE)
  let h3 := PUT (PUT (PUT (PUT h (bp - WSIZE) size) (bp + size - DSIZE) size)
    bp 0) (bp + WSIZE) 0
  if pa ≠ 0 ∧ na ≠ 0 then
    free_list_insert h3 bp
  else if pa ≠ 0 ∧ na = 0 then
    let h4 := free_list_remove h3 (bp + size)
    let h5 := PUT (PUT h4 (bp - WSIZE) (size + nsz))
      (bp + size + nsz - DSIZE) (size + nsz)
    free_list_insert h5 bp
  else if pa = 0 ∧ na ≠ 0 then
    let h4 := free_list_remove h3 (bp - psz)
    let h5 := PUT (PUT h4 (bp + size - DSIZE) (size + psz))
      (bp - psz - WSIZE) (size + psz)
    free_list_insert h5 (bp - psz)
  else
    let h4 := free_list_remove (free_list_remove h3 (bp - psz)) (bp + size)
    let h5 := PUT (PUT h4 (bp - psz - WSIZE) (size + psz + nsz))
      (bp + size + nsz - DSIZE) (size + psz + nsz)
    free_list_insert h5 (bp - psz)

/-- Growing `resize` as §4.4 describes it: if the immediately following
block (at `oldbp + currentSize`) is free and its size plus the current
size is at least the rounded `blockSize`, merge in place — remove the
neighbour from the index and rewrite header/footer with the combined
size, returning `oldbp` with no data movement; otherwise allocate a new
block, copy `min(oldPayload, newPayload)` bytes, release the old block
and return the new address. -/
def reallocGrowSpec (h : Heap) (fuel oldbp newSize : Nat) : Option (Nat × Heap) :=
  let old_size := GET_SIZE h (HDRP oldbp)
  let size2 := roundSize newSize
  let nb := oldbp + old_size
  if GET_ALLOC h (nb - WSIZE) = 0 ∧ size2 ≤ GET_SIZE h (nb - WSIZE) + old_size then
    let h1 := free_list_remove h nb
    let sz := old_size + GET_SIZE h (nb - WSIZE)
    some (oldbp, PUT (PUT h1 (oldbp - WSIZE) (sz + 1)) (oldbp + sz - DSIZE) (sz + 1))
  else
    match mm_malloc h fuel newSize with
    | none => none
    | some r =>
      let copy := min (old_size - DSIZE) (size2 - DSIZE)
      some (r.1, mm_free (memcpyW r.2 r.1 oldbp (copy / WSIZE)) oldbp)

/-! ### Concrete heaps used by the witness theorems -/

/-- A trivial heap whose every word is 1 (an allocated header wherever
read). -/
def hAllocd : Heap :=
  { mem := fun _ => 1, brk := 0, base := 0, freeBlocks := 0,
    heapBlocks := 0, warn := 0 }

/-- The heap produced by `mm_init` with the managed region starting at
address 8: bucket array at 8..72, prologue block at 80, one free block
of size 4096 at 88 (linked in bucket 8, whose cell is address 40),
epilogue header at 4180, break 4184. -/
def hInit : Heap := mm_init 8

/-- `hInit` after `allocate(100)`: block 88 (size 112) is allocated, the
remainder block 200 (size 3984) is free and linked in bucket 8. -/
def hA : Heap := ((mm_malloc hInit 100 100).getD (0, hInit)).2

/-- A small hand-built heap: bucket array at 8, two free blocks of size
32 at 1000 and 2000 (headers at 996 and 1996). -/
def hC0 : Heap :=
  { mem := fun _ => 0, brk := 4096, base := 8, freeBlocks := 8,
    heapBlocks := 0, warn := 0 }

/-- `hC0` after inserting block 1000 and then block 2000 into the free
list; both land in bucket 1, with 2000 (the later insertion) at the
head. -/
def hC : Heap :=
  free_list_insert (free_list_insert (PUT (PUT hC0 996 32) 1996 32) 1000) 2000

/-! ## Basic facts about the memory model -/

@[simp] theorem PUT_mem_apply (h : Heap) (p v a : Nat) :
    (PUT h p v).mem a = if a = p then v % W32 else h.mem a := rfl

@[simp] theorem PUT_brk (h : Heap) (p v : Nat) : (PUT h p v).brk = h.brk := rfl
@[simp] theorem PUT_base (h : Heap) (p v : Nat) : (PUT h p v).base = h.base := rfl
@[simp] theorem PUT_freeBlocks (h : Heap) (p v : Nat) :
    (PUT h p v).freeBlocks = h.freeBlocks := rfl
@[simp] theorem PUT_heapBlocks (h : Heap) (p v : Nat) :
    (PUT h p v).heapBlocks = h.heapBlocks := rfl
@[simp] theorem PUT_warn (h : Heap) (p v : Nat) : (PUT h p v).warn = h.warn := rfl

theorem GET_PUT (h : Heap) (p v q : Nat) :
    GET (PUT h p v) q = if q = p then v % W32 else GET h q := by
  unfold GET PUT
  by_cases hq : q = p <;> simp [hq, Nat.mod_mod_of_dvd]

theorem GET_PUT_eq (h : Heap) (p v : Nat) : GET (PUT h p v) p = v % W32 := by
  simp [GET_PUT]

theorem GET_PUT_ne (h : Heap) (p v q : Nat) (hne : q ≠ p) :
    GET (PUT h p v) q = GET h q := by
  simp [GET_PUT, hne]

theorem GET_lt (h : Heap) (p : Nat) : GET h p < W32 :=
  Nat.mod_lt _ (by decide)

/-- The header mask: for a 32-bit value, `x & ~0x7` clears the low
three bits. -/
theorem and_mask8 {x : Nat} (hx : x < W32) : x &&& 0xFFFFFFF8 = 8 * (x / 8) := by
  have hm : (0xFFFFFFF8 : Nat) = (2 ^ 29 - 1) <<< 3 := by
    rw [Nat.shiftLeft_eq]; norm_num
  have h8 : 8 * (x / 8) = (x >>> 3) <<< 3 := by
    rw [Nat.shiftLeft_eq, Nat.shiftRight_eq_div_pow]
    norm_num [Nat.mul_comm]
  rw [hm, h8]
  apply Nat.eq_of_testBit_eq
  intro i
  simp only [Nat.testBit_and, Nat.testBit_shiftLeft, Nat.testBit_shiftRight,
    Nat.testBit_two_pow_sub_one]
  by_cases h3 : 3 ≤ i
  · have hi : 3 + (i - 3) = i := by omega
    by_cases h32 : i < 32
    · simp [h3, hi, ge_iff_le, show i - 3 < 29 by omega]
    · have hxi : x < 2 ^ i := by
        refine lt_of_lt_of_le hx ?_
        calc (W32 : Nat) = 2 ^ 32 := by norm_num [W32]
          _ ≤ 2 ^ i := Nat.pow_le_pow_right (by norm_num) (by omega)
      have hb : x.testBit i = false := Nat.testBit_lt_two_pow hxi
      simp [hi, hb]
  · simp [ge_iff_le, h3]

theorem GET_SIZE_eq (h : Heap) (p : Nat) : GET_SIZE h p = 8 * (GET h p / 8) := by
  unfold GET_SIZE
  exact and_mask8 (GET_lt h p)

theorem GET_ALLOC_eq (h : Heap) (p : Nat) : GET_ALLOC h p = GET h p % 2 := by
  unfold GET_ALLOC
  exact Nat.and_one_is_mod _

theorem GET_SIZE_mod8 (h : Heap) (p : Nat) : GET_SIZE h p % 8 = 0 := by
  rw [GET_SIZE_eq]; omega

theorem GET_SIZE_lt (h : Heap) (p : Nat) : GET_SIZE h p < W32 := by
  have := GET_lt h p
  rw [GET_SIZE_eq]
  unfold W32 at *; omega

/-- `PACK` on a size that is a multiple of 8 and an allocation bit `< 8`
is plain addition. -/
theorem PACK_eq {s a : Nat} (h8 : s % 8 = 0) (ha : a < 8) : PACK s a = s + a := by
  unfold PACK
  have hs : s = 2 ^ 3 * (s / 8) := by omega
  rw [hs, ← Nat.mul_add_lt_is_or (by simpa using ha) (s / 8)]

theorem PACK_zero (s : Nat) : PACK s 0 = s := Nat.or_zero s

/-- Reading back the size field of a word just written. -/
theorem GET_SIZE_PUT_self (h : Heap) (p v : Nat) (hv : v < W32) :
    GET_SIZE (PUT h p v) p = 8 * (v / 8) := by
  unfold GET_SIZE
  rw [GET_PUT_eq, Nat.mod_eq_of_lt hv, and_mask8 hv]

theorem GET_SIZE_PUT_ne (h : Heap) (p v q : Nat) (hne : q ≠ p) :
    GET_SIZE (PUT h p v) q = GET_SIZE h q := by
  unfold GET_SIZE
  rw [GET_PUT_ne _ _ _ _ hne]

theorem GET_ALLOC_PUT_ne (h : Heap) (p v q : Nat) (hne : q ≠ p) :
    GET_ALLOC (PUT h p v) q = GET_ALLOC h q := by
  unfold GET_ALLOC
  rw [GET_PUT_ne _ _ _ _ hne]

/-- Frame lemma for `free_list_remove`: the removal of `x` writes only to
`x`, `x + WSIZE`, the stored prev pointer `GET h x` (or its next-link
word `GET h x + WSIZE`) and the stored next pointer `GET h (x + WSIZE)`;
any other cell keeps its value.  The three `hx` hypotheses rule out
degenerate self-links of `x`. -/
theorem free_list_remove_outside (h : Heap) (x a : Nat)
    (hx1 : GET h x ≠ x) (hx2 : GET h x ≠ x + WSIZE) (hx3 : GET h x + WSIZE ≠ x)
    (ha1 : a ≠ x) (ha2 : a ≠ x + WSIZE)
    (ha3 : a ≠ GET h x) (ha4 : a ≠ GET h x + WSIZE) (ha5 : a ≠ GET h (x + WSIZE)) :
    GET (free_list_remove h x) a = GET h a := by
  unfold free_list_remove
  by_cases halloc : GET_ALLOC h (HDRP x) ≠ 0
  · rw [if_pos halloc]
    rfl
  · rw [if_neg halloc]
    show GET (PUT (PUT (if ¬ preP h x ∧ sucP h x then
        PUT (PUT h (GET h x) (GET h (x + WSIZE)))
          (GET (PUT h (GET h x) (GET h (x + WSIZE))) (x + WSIZE))
          (GET (PUT h (GET h x) (GET h (x + WSIZE))) x)
      else if ¬ preP h x ∧ ¬ sucP h x then
        PUT h (GET h x) (GET h (x + WSIZE))
      else if preP h x ∧ sucP h x then
        PUT (PUT h (GET h x + WSIZE) (GET h (x + WSIZE)))
          (GET (PUT h (GET h x + WSIZE) (GET h (x + WSIZE))) (x + WSIZE))
          (GET (PUT h (GET h x + WSIZE) (GET h (x + WSIZE))) x)
      else PUT h (GET h x + WSIZE) 0) x 0) (x + WSIZE) 0) a = GET h a
    by_cases hpre : preP h x <;> by_cases hsuc : sucP h x
    · rw [if_neg (by tauto), if_neg (by tauto), if_pos ⟨hpre, hsuc⟩]
      rw [GET_PUT_ne _ _ _ _ (show x + WSIZE ≠ GET h x + WSIZE from
            fun he => hx1 (by omega)),
        GET_PUT_ne _ _ _ _ (Ne.symm hx3)]
      rw [GET_PUT_ne _ _ _ _ ha2, GET_PUT_ne _ _ _ _ ha1,
        GET_PUT_ne _ _ _ _ ha5, GET_PUT_ne _ _ _ _ ha4]
    · rw [if_neg (by tauto), if_neg (by tauto), if_neg (by tauto)]
      rw [GET_PUT_ne _ _ _ _ ha2, GET_PUT_ne _ _ _ _ ha1,
        GET_PUT_ne _ _ _ _ ha4]
    · rw [if_pos ⟨hpre, hsuc⟩]
      rw [GET_PUT_ne _ _ _ _ (Ne.symm hx2), GET_PUT_ne _ _ _ _ (Ne.symm hx1)]
      rw [GET_PUT_ne _ _ _ _ ha2, GET_PUT_ne _ _ _ _ ha1,
        GET_PUT_ne _ _ _ _ ha5, GET_PUT_ne _ _ _ _ ha3]
    · rw [if_neg (by tauto), if_pos ⟨hpre, hsuc⟩]
      rw [GET_PUT_ne _ _ _ _ ha2, GET_PUT_ne _ _ _ _ ha1,
        GET_PUT_ne _ _ _ _ ha3]

theorem GET_SIZE_remove_outside (h : Heap) (x a : Nat)
    (hx1 : GET h x ≠ x) (hx2 : GET h x ≠ x + WSIZE) (hx3 : GET h x + WSIZE ≠ x)
    (ha1 : a ≠ x) (ha2 : a ≠ x + WSIZE)
    (ha3 : a ≠ GET h x) (ha4 : a ≠ GET h x + WSIZE) (ha5 : a ≠ GET h (x + WSIZE)) :
    GET_SIZE (free_list_remove h x) a = GET_SIZE h a := by
  unfold GET_SIZE
  rw [free_list_remove_outside h x a hx1 hx2 hx3 ha1 ha2 ha3 ha4 ha5]

/-! ## C8: `resize(null, n)` behaves as `allocate(n)` -/

/-- C8: for every size `n` (and every search fuel), `resize(null, n)`
returns the same result and the same heap/free-list state as a direct
`allocate(n)` call: the null test in `mm_realloc` routes straight to
`mm_malloc` before any write. -/
theorem realloc_null_behaves_as_malloc (h : Heap) (fuel n : Nat) :
    mm_realloc h fuel 0 n = mm_malloc h fuel n := by
  unfold mm_realloc
  simp

/-! ## C9: removal attempted on an allocated block -/

/-- C9: when `free_list_remove` is applied to a block whose header
allocated bit is set (as on a double free), it logs a warning and leaves
the memory — free-list index, header, footer and link words — unchanged:
the resulting state is the old one with only the warning count bumped. -/
theorem free_list_remove_allocated_warns (h : Heap) (bp : Nat)
    (hal : GET_ALLOC h (HDRP bp) ≠ 0) :
    free_list_remove h bp = { h with warn := h.warn + 1 } := by
  unfold free_list_remove
  rw [if_pos hal]

/-- Witness for C9 on a concrete heap whose every header word is 1
(allocated). -/
theorem free_list_remove_allocated_warns_witness :
    GET_ALLOC hAllocd (HDRP 4) ≠ 0 ∧
    free_list_remove hAllocd 4 = { hAllocd with warn := hAllocd.warn + 1 } :=
  ⟨by decide, free_list_remove_allocated_warns hAllocd 4 (by decide)⟩

/-! ## C10: the unguarded header read in `mm_realloc` -/

/-- C10: `mm_realloc` reads the header word at `p - WSIZE` before testing
whether `p` is null, so with that first read bounds-checked,
`resize(null, n)` fails for every `n` and every fuel: the address
`HDRP 0` lies below the managed region whenever the region starts at a
positive address. -/
theorem realloc_checked_null_read_fails (h : Heap) (hb : 0 < h.base)
    (fuel n : Nat) :
    mm_realloc_checked h fuel 0 n = none := by
  unfold mm_realloc_checked GETc
  have hout : ¬ (h.base ≤ HDRP 0 ∧ HDRP 0 + WSIZE ≤ h.brk) := by
    unfold HDRP WSIZE
    omega
  rw [if_neg hout]

/-- Witness for C10 on the heap produced by `mm_init 8` (managed region
starting at address 8). -/
theorem realloc_checked_null_read_fails_witness :
    0 < (mm_init 8).base ∧ mm_realloc_checked (mm_init 8) 5 0 50 = none :=
  ⟨by decide, realloc_checked_null_read_fails (mm_init 8) (by decide) 5 50⟩

/-! ## C5: placement -/

/-- C5: for every rounded request `asize` (a positive multiple of 8, at
least the minimum block size) that fits into the candidate block `bp`
(`asize ≤ candidateSize`), `place` behaves exactly as the spec's
placement step `placeSpec`: split off a remainder free block when the
leftover is at least `BLOCKSIZE = 16`, allocate the whole block
otherwise, with the candidate removed from the index before any
reinsertion. -/
theorem place_follows_spec (h : Heap) (bp asize : Nat)
    (ha8 : asize % 8 = 0) (ha16 : BLOCKSIZE ≤ asize)
    (hle : asize ≤ GET_SIZE h (HDRP bp)) :
    place h bp asize = placeSpec h bp asize := by
  have hc8 : GET_SIZE h (HDRP bp) % 8 = 0 := GET_SIZE_mod8 h (HDRP bp)
  have hcw : GET_SIZE h (HDRP bp) < W32 := GET_SIZE_lt h (HDRP bp)
  simp only [place, placeSpec]
  set csize := GET_SIZE h (HDRP bp) with hcs
  have haw : asize < W32 := lt_of_le_of_lt hle hcw
  have hsub : csub csize asize = csize - asize := by
    unfold csub
    unfold W32 at *
    omega
  have hp1 : PACK asize 1 = asize + 1 := PACK_eq ha8 (by norm_num)
  have hp0 : PACK (csize - asize) 0 = csize - asize := PACK_zero _
  have hpc : PACK csize 1 = csize + 1 := PACK_eq hc8 (by norm_num)
  simp only [hsub, hp1, hp0, hpc, HDRP]
  set h1 := free_list_remove h bp with hh1
  by_cases hsplit : BLOCKSIZE ≤ csize - asize
  · rw [if_pos hsplit, if_pos hsplit]
    have e2 : FTRP (PUT h1 (bp - WSIZE) (asize + 1)) bp = bp + asize - DSIZE := by
      unfold FTRP HDRP
      rw [GET_SIZE_PUT_self _ _ _ (by unfold W32 at *; omega)]
      unfold DSIZE
      omega
    rw [e2]
    have e3 : NEXT_BLKP
        (PUT (PUT h1 (bp - WSIZE) (asize + 1)) (bp + asize - DSIZE) (asize + 1))
        bp = bp + asize := by
      unfold NEXT_BLKP HDRP
      rw [GET_SIZE_PUT_ne _ _ _ _
        (by unfold WSIZE DSIZE BLOCKSIZE at *; omega)]
      rw [GET_SIZE_PUT_self _ _ _ (by unfold W32 at *; omega)]
      omega
    rw [e3]
    have e5 : FTRP
        (PUT (PUT (PUT h1 (bp - WSIZE) (asize + 1)) (bp + asize - DSIZE)
          (asize + 1)) (bp + asize - WSIZE) (csize - asize))
        (bp + asize) = bp + asize + (csize - asize) - DSIZE := by
      unfold FTRP HDRP
      rw [GET_SIZE_PUT_self _ _ _ (by unfold W32 at *; omega)]
      unfold DSIZE
      omega
    rw [e5]
  · rw [if_neg hsplit, if_neg hsplit]
    have e2 : FTRP (PUT h1 (bp - WSIZE) (csize + 1)) bp = bp + csize - DSIZE := by
      unfold FTRP HDRP
      rw [GET_SIZE_PUT_self _ _ _ (by unfold W32 at *; omega)]
      unfold DSIZE
      omega
    rw [e2]

/-- Witness for C5: placing a rounded request of 24 bytes into the
4096-byte free block of the freshly initialised heap. -/
theorem place_follows_spec_witness :
    24 % 8 = 0 ∧ BLOCKSIZE ≤ 24 ∧ 24 ≤ GET_SIZE hInit (HDRP 88) ∧
    place hInit 88 24 = placeSpec hInit 88 24 :=
  ⟨by decide, by decide, by decide,
    place_follows_spec hInit 88 24 (by decide) (by decide) (by decide)⟩

/-! ## C7: growing resize -/

/-- C7: for every `resize(p, newSize)` on a live block (header size at
least the minimum block size) with `newSize` strictly greater than the
block's current rounded size, `mm_realloc` behaves exactly as the spec's
growth step `reallocGrowSpec`: merge with the immediately following
block in place (removing it from the index and rewriting header/footer
with the combined size, no data movement) when that block is free and
large enough, else allocate-new / copy `min(oldPayload, newPayload)`
bytes / release-old.  The two bound hypotheses keep the 32-bit `size_t`
arithmetic of the source exact. -/
theorem realloc_grow_follows_spec (h : Heap) (fuel oldbp newSize : Nat)
    (hbp : oldbp ≠ 0)
    (h16 : 16 ≤ GET_SIZE h (HDRP oldbp))
    (hgt : GET_SIZE h (HDRP oldbp) < newSize)
    (hw : newSize + 15 < W32)
    (hsum : GET_SIZE h (HDRP oldbp) + GET_SIZE h (HDRP (NEXT_BLKP h oldbp)) < W32) :
    mm_realloc h fuel oldbp newSize = reallocGrowSpec h fuel oldbp newSize := by
  have hos8 : GET_SIZE h (HDRP oldbp) % 8 = 0 := GET_SIZE_mod8 h (HDRP oldbp)
  have hosw : GET_SIZE h (HDRP oldbp) < W32 := GET_SIZE_lt h (HDRP oldbp)
  have hnb : NEXT_BLKP h oldbp = oldbp + GET_SIZE h (HDRP oldbp) := rfl
  rw [hnb] at hsum
  simp only [HDRP] at h16 hgt hos8 hosw hsum
  simp only [mm_realloc, reallocGrowSpec, hnb, HDRP]
  set os := GET_SIZE h (oldbp - WSIZE) with hos
  set ns := GET_SIZE h (oldbp + os - WSIZE) with hns
  have hns8 : ns % 8 = 0 := GET_SIZE_mod8 h _
  set s2 := roundSize newSize with hs2def
  have hs28 : s2 % 8 = 0 := by
    rw [hs2def]
    unfold roundSize DSIZE
    split <;> omega
  have hs2 : os < s2 := by
    rw [hs2def]
    unfold roundSize
    rw [if_pos (by unfold DSIZE; omega)]
    unfold DSIZE W32 at *
    omega
  rw [if_neg hbp, if_neg (show ¬ newSize = 0 by omega),
    if_neg (show ¬ s2 = os by omega), if_pos hs2]
  by_cases hcond : GET_ALLOC h (oldbp + os - WSIZE) = 0 ∧ s2 ≤ ns + os
  · rw [if_pos hcond, if_pos hcond]
    unfold put_head_foot
    have hmod : (os + ns) % W32 = os + ns := Nat.mod_eq_of_lt hsum
    have hpk : PACK ((os + ns) % W32) 1 = os + ns + 1 := by
      rw [hmod]
      exact PACK_eq (by omega) (by norm_num)
    simp only [hpk, HDRP]
    have e1 : FTRP
        (PUT (free_list_remove h (oldbp + os)) (oldbp - WSIZE) (os + ns + 1))
        oldbp = oldbp + (os + ns) - DSIZE := by
      unfold FTRP HDRP
      rw [GET_SIZE_PUT_self _ _ _ (by unfold W32 at *; omega)]
      unfold DSIZE
      omega
    rw [e1]
  · rw [if_neg hcond, if_neg hcond]
    cases hres : mm_malloc h fuel newSize with
    | none => rfl
    | some r =>
      have hcopy : csub os DSIZE / WSIZE = min (os - DSIZE) (s2 - DSIZE) / WSIZE := by
        unfold csub DSIZE WSIZE
        unfold W32 at *
        omega
      simp only [hcopy]

/-! ## C4: the free-list search -/

theorem classLoop_cls_le (k : Nat) : ∀ s c r : Nat, (classLoop k s c r).2.1 ≤ c + k := by
  induction k with
  | zero => intro s c r; simp [classLoop]
  | succ k ih =>
    intro s c r
    unfold classLoop
    split
    · exact le_trans (ih _ _ _) (by omega)
    · simp

theorem sizeClass_le (s : Nat) : sizeClass s ≤ ClassSize - 1 := by
  have := classLoop_cls_le (ClassSize - 1) s 0 0
  simp only [sizeClass]
  split
  next hcond => omega
  next hcond => omega

/-- A bucket scan with enough fuel returns exactly the first fit of the
bucket's chain. -/
theorem chainSearch_firstFit (h : Heap) (tmp : Nat) :
    ∀ (l : List Nat) (v fuel : Nat), isChain h v l → l.length ≤ fuel →
    chainSearch h tmp v fuel = some (firstFit h tmp l) := by
  intro l
  induction l with
  | nil =>
    intro v fuel hc _
    unfold chainSearch
    rw [if_pos (show v = 0 from hc)]
    rfl
  | cons b t ih =>
    intro v fuel hc hlen
    obtain ⟨hv, hb0, hct⟩ := hc
    subst hv
    cases fuel with
    | zero => simp at hlen
    | succ fuel =>
      unfold chainSearch
      rw [if_neg hb0]
      simp only [firstFit]
      split_ifs with hfit
      · rfl
      · exact ih _ fuel hct (by simpa using Nat.le_of_succ_le_succ hlen)

theorem firstFit_append_some (h : Heap) (a : Nat) (l1 l2 : List Nat) (b : Nat)
    (hf : firstFit h a l1 = some b) :
    firstFit h a (l1 ++ l2) = some b := by
  induction l1 with
  | nil => simp [firstFit] at hf
  | cons x t ih =>
    simp only [firstFit, List.cons_append] at hf ⊢
    by_cases hx : a ≤ GET_SIZE h (HDRP x)
    · rw [if_pos hx] at hf ⊢; exact hf
    · rw [if_neg hx] at hf ⊢; exact ih hf

theorem firstFit_append_none (h : Heap) (a : Nat) (l1 l2 : List Nat)
    (hf : firstFit h a l1 = none) :
    firstFit h a (l1 ++ l2) = firstFit h a l2 := by
  induction l1 with
  | nil => rfl
  | cons x t ih =>
    simp only [firstFit, List.cons_append] at hf ⊢
    by_cases hx : a ≤ GET_SIZE h (HDRP x)
    · rw [if_pos hx] at hf; exact absurd hf (by simp)
    · rw [if_neg hx] at hf ⊢; exact ih hf

/-- The bucket loop with enough fuel returns the first fit over the
concatenation of the scanned buckets' chains, in order. -/
theorem classSearchAux_firstFit (h : Heap) (bs : Nat → List Nat) (tmp fuel : Nat) :
    ∀ (r sc : Nat),
    (∀ c, sc ≤ c → c < sc + r →
      isChain h (GET h (h.freeBlocks + WSIZE * c)) (bs c) ∧ (bs c).length ≤ fuel) →
    classSearchAux h tmp fuel r sc =
      some (firstFit h tmp (bucketsAux bs r sc)) := by
  intro r
  induction r with
  | zero => intro sc _; rfl
  | succ r ih =>
    intro sc hcs
    have hsc := hcs sc (le_refl _) (by omega)
    have hcs' := chainSearch_firstFit h tmp (bs sc) _ fuel hsc.1 hsc.2
    unfold classSearchAux
    rw [hcs']
    unfold bucketsAux
    cases hff : firstFit h tmp (bs sc) with
    | some b =>
      rw [firstFit_append_some h tmp _ _ _ hff]
    | none =>
      rw [firstFit_append_none h tmp _ _ hff]
      show classSearchAux h tmp fuel r (sc + 1) = _
      exact ih (sc + 1) (fun c hc1 hc2 => hcs c (by omega) (by omega))

/-- Chains only depend on the next-link cells of their members. -/
theorem isChain_congr (h h2 : Heap) :
    ∀ (l : List Nat) (v : Nat),
    (∀ x ∈ l, GET h2 (x + WSIZE) = GET h (x + WSIZE)) →
    isChain h v l → isChain h2 v l := by
  intro l
  induction l with
  | nil => intro v _ hc; exact hc
  | cons b t ih =>
    intro v hs hc
    obtain ⟨hv, hb0, hct⟩ := hc
    refine ⟨hv, hb0, ?_⟩
    rw [hs b (by simp)]
    exact ih _ (fun x hx => hs x (by simp [hx])) hct

/-- `find_fit` with enough fuel computes the first fit over the
concatenated chains of the buckets from the request's size class up. -/
theorem find_fit_eq (h : Heap) (bs : Nat → List Nat) (fuel asize : Nat)
    (hIdx : IndexAbs h bs)
    (hlen : ∀ c, c < ClassSize → (bs c).length ≤ fuel) :
    find_fit h fuel asize =
      some (firstFit h asize
        (bucketsAux bs (ClassSize - sizeClass asize) (sizeClass asize))) := by
  unfold find_fit
  apply classSearchAux_firstFit
  intro c hc1 hc2
  have hcCS : c < ClassSize := by
    have := sizeClass_le asize
    omega
  exact ⟨hIdx c hcCS, hlen c hcCS⟩

theorem firstFit_mem (h : Heap) (a : Nat) :
    ∀ (l : List Nat) (b : Nat), firstFit h a l = some b → b ∈ l := by
  intro l
  induction l with
  | nil => intro b hb; simp [firstFit] at hb
  | cons x t ih =>
    intro b hb
    simp only [firstFit] at hb
    by_cases hx : a ≤ GET_SIZE h (HDRP x)
    · rw [if_pos hx] at hb
      simp at hb
      simp [hb]
    · rw [if_neg hx] at hb
      simp [ih b hb]

theorem bucketsAux_mem (bs : Nat → List Nat) :
    ∀ (r sc b : Nat), b ∈ bucketsAux bs r sc →
      ∃ c, sc ≤ c ∧ c < sc + r ∧ b ∈ bs c := by
  intro r
  induction r with
  | zero => intro sc b hb; simp [bucketsAux] at hb
  | succ r ih =>
    intro sc b hb
    simp only [bucketsAux, List.mem_append] at hb
    cases hb with
    | inl hb => exact ⟨sc, le_refl _, by omega, hb⟩
    | inr hb =>
      obtain ⟨c, hc1, hc2, hc3⟩ := ih (sc + 1) b hb
      exact ⟨c, by omega, by omega, hc3⟩

/-- C4 (as amended): with the free-list index abstracted by bucket
chains `bs` and enough fuel, (1) `find_fit` starts at the bucket given
by the size-class function, scans that bucket and every larger bucket,
within each bucket following the list from its head, and returns the
first block encountered whose size is ≥ `asize`, or null if none fits;
and (2) `free_list_insert` links a block at the *head* of its bucket's
list, so the traversal order within a bucket is reverse insertion order
(most recently inserted block first). -/
theorem find_fit_first_fit (h : Heap) (bs : Nat → List Nat) (fuel asize : Nat)
    (hIdx : IndexAbs h bs)
    (hlen : ∀ c, c < ClassSize → (bs c).length ≤ fuel) :
    find_fit h fuel asize =
      some (firstFit h asize
        (bucketsAux bs (ClassSize - sizeClass asize) (sizeClass asize))) ∧
    (∀ bp : Nat, bp ≠ 0 → bp < W32 →
      h.freeBlocks + WSIZE * sizeClass (GET_SIZE h (HDRP bp)) ≠ bp →
      h.freeBlocks + WSIZE * sizeClass (GET_SIZE h (HDRP bp)) ≠ bp + WSIZE →
      (∀ x ∈ bs (sizeClass (GET_SIZE h (HDRP bp))),
        x ≠ bp ∧ x ≠ bp + WSIZE ∧
        x + WSIZE ≠ bp ∧ x + WSIZE ≠ bp + WSIZE ∧
        x + WSIZE ≠ h.freeBlocks + WSIZE * sizeClass (GET_SIZE h (HDRP bp)) ∧
        x + WSIZE ≠ GET h (h.freeBlocks + WSIZE * sizeClass (GET_SIZE h (HDRP bp)))) →
      isChain (free_list_insert h bp)
        (GET (free_list_insert h bp)
          (h.freeBlocks + WSIZE * sizeClass (GET_SIZE h (HDRP bp))))
        (bp :: bs (sizeClass (GET_SIZE h (HDRP bp))))) := by
  constructor
  · exact find_fit_eq h bs fuel asize hIdx hlen
  · intro bp hbp0 hbpW hs1 hs2 hxs
    set c := sizeClass (GET_SIZE h (HDRP bp)) with hc
    set scp := h.freeBlocks + WSIZE * c with hscp
    have hch : isChain h (GET h scp) (bs c) := by
      apply hIdx
      have := sizeClass_le (GET_SIZE h (HDRP bp))
      unfold ClassSize at *
      omega
    simp only [free_list_insert]
    rw [← hc, ← hscp]
    by_cases hhead : GET h scp = 0
    · rw [if_pos hhead]
      have hbs : bs c = [] := by
        rw [hhead] at hch
        cases hbse : bs c with
        | nil => rfl
        | cons x t => rw [hbse] at hch; exact absurd hch.1 (Ne.symm hch.2.1)
      rw [hbs]
      refine ⟨?_, hbp0, ?_⟩
      · rw [GET_PUT_ne _ _ _ _ hs2, GET_PUT_ne _ _ _ _ hs1,
          GET_PUT_eq, Nat.mod_eq_of_lt hbpW]
      · rw [GET_PUT_eq]
        rfl
    · rw [if_neg hhead]
      obtain ⟨x1, t1, hbse⟩ : ∃ x1 t1, bs c = x1 :: t1 := by
        cases hbse : bs c with
        | nil => rw [hbse] at hch; exact absurd hch hhead
        | cons x t => exact ⟨x, t, rfl⟩
      have hx1 := hxs x1 (by simp [hbse])
      have hohd : GET h scp = x1 := by
        rw [hbse] at hch
        exact hch.1
      -- clean the two inner reads of the bucket cell
      rw [GET_PUT_ne _ _ _ _ hs2, GET_PUT_ne _ _ _ _ hs1]
      refine ⟨?_, hbp0, ?_⟩
      · rw [GET_PUT_eq, Nat.mod_eq_of_lt hbpW]
      · have hlnk : GET (PUT (PUT (PUT (PUT h bp scp) (bp + WSIZE) (GET h scp))
            (GET h scp) bp) scp bp) (bp + WSIZE) = GET h scp := by
          rw [GET_PUT_ne _ _ _ _ (Ne.symm hs2),
            GET_PUT_ne _ _ _ _ (by rw [hohd]; exact Ne.symm hx1.2.1),
            GET_PUT_eq]
          exact Nat.mod_eq_of_lt (GET_lt h scp)
        rw [hlnk]
        refine isChain_congr h _ (bs c) (GET h scp) ?_ hch
        intro x hx
        have hxh := hxs x hx
        rw [GET_PUT_ne _ _ _ _ hxh.2.2.2.2.1, GET_PUT_ne _ _ _ _ hxh.2.2.2.2.2,
          GET_PUT_ne _ _ _ _ hxh.2.2.2.1, GET_PUT_ne _ _ _ _ hxh.2.2.1]

/-- Witness for C7: growing the 112-byte allocated block at 88 of `hA`
to a request of 200 bytes; the following block (200, size 3984) is free
and large enough, so the in-place branch applies. -/
theorem realloc_grow_follows_spec_witness :
    (88 : Nat) ≠ 0 ∧ 16 ≤ GET_SIZE hA (HDRP 88) ∧ GET_SIZE hA (HDRP 88) < 200 ∧
    200 + 15 < W32 ∧
    GET_SIZE hA (HDRP 88) + GET_SIZE hA (HDRP (NEXT_BLKP hA 88)) < W32 ∧
    mm_realloc hA 100 88 200 = reallocGrowSpec hA 100 88 200 :=
  ⟨by decide, by decide, by decide, by decide, by decide,
    realloc_grow_follows_spec hA 100 88 200 (by decide) (by decide) (by decide)
      (by decide) (by decide)⟩

/-- C4 counterexample: in the heap `hC`, block 1000 was inserted into
bucket 1 *before* block 2000, and both fit a request of 24 bytes; a
search that traverses the bucket in insertion order would return 1000
first, but `find_fit` returns 2000 — the bucket list is traversed from
its head, i.e. in *reverse* insertion order. -/
theorem find_fit_not_insertion_order :
    find_fit hC 10 24 = some (some 2000) ∧
    24 ≤ GET_SIZE hC (HDRP 1000) ∧ (2000 : Nat) ≠ 1000 := by
  decide

/-- Witness for C4 (amended): the freshly initialised heap, whose index
holds exactly block 88 in bucket 8, searched for a rounded request of
24 bytes. -/
theorem find_fit_first_fit_witness :
    IndexAbs hInit (fun c => if c = 8 then [88] else []) ∧
    (∀ c, c < ClassSize →
      ((fun c => if c = 8 then [88] else []) c).length ≤ 5) ∧
    find_fit hInit 5 24 =
      some (firstFit hInit 24
        (bucketsAux (fun c => if c = 8 then [88] else [])
          (ClassSize - sizeClass 24) (sizeClass 24))) :=
  ⟨by decide, by decide,
    (find_fit_first_fit hInit (fun c => if c = 8 then [88] else []) 5 24
      (by decide) (by decide)).1⟩

/-! ## C1: alignment of allocated pointers -/

theorem coalesce_fst_aligned (h : Heap) (bp : Nat) (hb : bp % 8 = 0) :
    (coalesce h bp).1 % 8 = 0 := by
  have hprev : ∀ h2 : Heap, PREV_BLKP h2 bp % 8 = 0 := by
    intro h2
    unfold PREV_BLKP
    have := GET_SIZE_mod8 h2 (bp - DSIZE)
    omega
  simp only [coalesce]
  split_ifs <;> simp only [] <;> first
    | exact hb
    | exact hprev _

theorem extend_heap_fst_aligned (h : Heap) (w : Nat) (hbrk : h.brk % 8 = 0) :
    (extend_heap h w).1 % 8 = 0 := by
  simp only [extend_heap, mem_sbrk]
  exact coalesce_fst_aligned _ _ hbrk

/-- C1: every successful, non-null `allocate(n)` returns an 8-aligned
payload address — whether the block is found in the free-list index
(whose chains hold 8-aligned blocks) or comes from a fresh heap
extension (the growth primitive returning the 8-aligned old break). -/
theorem mm_malloc_aligned (h : Heap) (bs : Nat → List Nat)
    (fuel n bp : Nat) (h2 : Heap)
    (hIdx : IndexAbs h bs)
    (hlen : ∀ c, c < ClassSize → (bs c).length ≤ fuel)
    (hal : ∀ c, c < ClassSize → ∀ x ∈ bs c, x % 8 = 0)
    (hbrk : h.brk % 8 = 0)
    (hn : 0 < n)
    (hres : mm_malloc h fuel n = some (bp, h2))
    (hbp0 : bp ≠ 0) :
    bp % 8 = 0 := by
  have hn0 : ¬ n = 0 := by omega
  simp only [mm_malloc] at hres
  rw [if_neg hn0, find_fit_eq h bs fuel (roundSize n) hIdx hlen] at hres
  cases hfit : firstFit h (roundSize n)
      (bucketsAux bs (ClassSize - sizeClass (roundSize n))
        (sizeClass (roundSize n))) with
  | some b =>
    rw [hfit] at hres
    have hres2 : some (b, place h b (roundSize n)) = some (bp, h2) := hres
    have hb : b = bp := (Prod.mk.injEq _ _ _ _).mp (Option.some.inj hres2) |>.1
    subst hb
    obtain ⟨c, hc1, hc2, hmem⟩ := bucketsAux_mem bs _ _ b
      (firstFit_mem h (roundSize n) _ b hfit)
    have hcCS : c < ClassSize := by
      have := sizeClass_le (roundSize n)
      omega
    exact hal c hcCS b hmem
  | none =>
    rw [hfit] at hres
    have hres2 : some ((extend_heap h (max (roundSize n) CHUNKSIZE / WSIZE)).1,
        place (extend_heap h (max (roundSize n) CHUNKSIZE / WSIZE)).2
          (extend_heap h (max (roundSize n) CHUNKSIZE / WSIZE)).1
          (roundSize n)) = some (bp, h2) := hres
    have hb : (extend_heap h (max (roundSize n) CHUNKSIZE / WSIZE)).1 = bp :=
      (Prod.mk.injEq _ _ _ _).mp (Option.some.inj hres2) |>.1
    rw [← hb]
    exact extend_heap_fst_aligned h _ hbrk

/-- Witness for C1: `allocate(100)` on the freshly initialised heap
returns the 8-aligned block 88. -/
theorem mm_malloc_aligned_witness :
    IndexAbs hInit (fun c => if c = 8 then [88] else []) ∧
    (∀ c, c < ClassSize →
      ((fun c => if c = 8 then [88] else []) c).length ≤ 100) ∧
    (∀ c, c < ClassSize →
      ∀ x ∈ (fun c => if c = 8 then [88] else []) c, x % 8 = 0) ∧
    hInit.brk % 8 = 0 ∧ 0 < 100 ∧
    mm_malloc hInit 100 100 = some (88, hA) ∧ (88 : Nat) ≠ 0 ∧
    (88 : Nat) % 8 = 0 :=
  ⟨by decide, by decide, by decide, by decide, by decide, by rfl, by decide,
    mm_malloc_aligned hInit (fun c => if c = 8 then [88] else []) 100 100 88 hA
      (by decide) (by decide) (by decide) (by decide) (by decide) (by rfl)
      (by decide)⟩

/-- `coalesce`, case 1: both neighbours allocated — the block is returned
unchanged.  `hm` is the already-marked heap; the `g` hypotheses are its
relevant header/footer reads. -/
theorem coalesce_case1 (hm : Heap) (bp size psz : Nat)
    (g0 : GET_SIZE hm (bp - WSIZE) = size)
    (g1 : GET_SIZE hm (bp - DSIZE) = psz)
    (g2 : GET_SIZE hm (bp - psz - WSIZE) = psz)
    (hpb : psz + DSIZE ≤ bp)
    (hpa : GET_ALLOC hm (bp - DSIZE) ≠ 0)
    (hna : GET_ALLOC hm (bp + size - WSIZE) ≠ 0) :
    coalesce hm bp = (bp, hm) := by
  have hDd : DSIZE = 8 := rfl
  have hWd : WSIZE = 4 := rfl
  have eP : PREV_BLKP hm bp = bp - psz := by
    unfold PREV_BLKP
    rw [g1]
  have eN : NEXT_BLKP hm bp = bp + size := by
    unfold NEXT_BLKP HDRP
    rw [g0]
  have eF : FTRP hm (bp - psz) = bp - DSIZE := by
    unfold FTRP HDRP
    rw [g2]
    omega
  simp only [coalesce, HDRP, PACK_zero]
  rw [eP, eN, eF, g0]
  rw [if_pos ⟨hpa, hna⟩]

/-- `coalesce`, case 2: only the next block is free — it is removed from
the index and absorbed; `bp` keeps its address and the merged tags are
written.  The `n*` hypotheses say the next block's stored links do not
alias the cells read or written afterwards. -/
theorem coalesce_case2 (hm : Heap) (bp size psz nsz : Nat)
    (g0 : GET_SIZE hm (bp - WSIZE) = size)
    (g1 : GET_SIZE hm (bp - DSIZE) = psz)
    (g2 : GET_SIZE hm (bp - psz - WSIZE) = psz)
    (g5 : GET_SIZE hm (bp + size - WSIZE) = nsz)
    (h16 : 16 ≤ size) (hpb : psz + DSIZE ≤ bp)
    (hs8 : size % 8 = 0) (hn8 : nsz % 8 = 0)
    (hw : size + nsz < W32)
    (hpa : GET_ALLOC hm (bp - DSIZE) ≠ 0)
    (hna : GET_ALLOC hm (bp + size - WSIZE) = 0)
    (n1 : GET hm (bp + size) ≠ bp + size)
    (n2 : GET hm (bp + size) ≠ bp + size + WSIZE)
    (n3 : GET hm (bp + size) + WSIZE ≠ bp + size)
    (nAv1 : AvoidList (GET hm (bp + size)) [bp - WSIZE, bp + size - WSIZE])
    (nAv2 : AvoidList (GET hm (bp + size) + WSIZE)
      [bp - WSIZE, bp + size - WSIZE])
    (nAv3 : AvoidList (GET hm (bp + size + WSIZE))
      [bp - WSIZE, bp + size - WSIZE]) :
    coalesce hm bp =
      (bp, PUT (PUT (free_list_remove hm (bp + size)) (bp - WSIZE)
        (size + nsz)) (bp + size + nsz - DSIZE) (size + nsz)) := by
  have hDd : DSIZE = 8 := rfl
  have hWd : WSIZE = 4 := rfl
  have eP : PREV_BLKP hm bp = bp - psz := by
    unfold PREV_BLKP
    rw [g1]
  have eN : NEXT_BLKP hm bp = bp + size := by
    unfold NEXT_BLKP HDRP
    rw [g0]
  have eF : FTRP hm (bp - psz) = bp - DSIZE := by
    unfold FTRP HDRP
    rw [g2]
    omega
  have hc1 : ¬ (GET_ALLOC hm (bp - DSIZE) ≠ 0 ∧
      GET_ALLOC hm (bp + size - WSIZE) ≠ 0) := fun hc => hc.2 hna
  have fb : GET_SIZE (free_list_remove hm (bp + size)) (bp - WSIZE) = size := by
    rw [GET_SIZE_remove_outside hm (bp + size) (bp - WSIZE) n1 n2 n3
      (by omega) (by omega)
      (Ne.symm (nAv1 _ (by simp))) (Ne.symm (nAv2 _ (by simp)))
      (Ne.symm (nAv3 _ (by simp)))]
    exact g0
  have f2 : GET_SIZE (free_list_remove hm (bp + size)) (bp + size - WSIZE)
      = nsz := by
    rw [GET_SIZE_remove_outside hm (bp + size) (bp + size - WSIZE) n1 n2 n3
      (by omega) (by omega)
      (Ne.symm (nAv1 _ (by simp))) (Ne.symm (nAv2 _ (by simp)))
      (Ne.symm (nAv3 _ (by simp)))]
    exact g5
  have eN1 : NEXT_BLKP (free_list_remove hm (bp + size)) bp = bp + size := by
    unfold NEXT_BLKP HDRP
    rw [fb]
  simp only [coalesce, HDRP, PACK_zero]
  rw [eP, eN, eF, g0]
  rw [if_neg hc1, if_pos ⟨hpa, hna⟩]
  rw [eN1, f2, Nat.mod_eq_of_lt hw]
  have eF2 : FTRP (PUT (free_list_remove hm (bp + size)) (bp - WSIZE)
      (size + nsz)) bp = bp + size + nsz - DSIZE := by
    unfold FTRP HDRP
    rw [GET_SIZE_PUT_self _ _ _ hw]
    omega
  rw [eF2]

/-- `coalesce`, case 3: only the previous block is free — it is removed
from the index and absorbed; the merged block starts at the previous
block's address. -/
theorem coalesce_case3 (hm : Heap) (bp size psz : Nat)
    (g0 : GET_SIZE hm (bp - WSIZE) = size)
    (g1 : GET_SIZE hm (bp - DSIZE) = psz)
    (g2 : GET_SIZE hm (bp - psz - WSIZE) = psz)
    (h16 : 16 ≤ size) (hp16 : 16 ≤ psz) (hpb : psz + DSIZE ≤ bp)
    (hw : size + psz < W32)
    (hpa : GET_ALLOC hm (bp - DSIZE) = 0)
    (hna : GET_ALLOC hm (bp + size - WSIZE) ≠ 0)
    (p1 : GET hm (bp - psz) ≠ bp - psz)
    (p2 : GET hm (bp - psz) ≠ bp - psz + WSIZE)
    (p3 : GET hm (bp - psz) + WSIZE ≠ bp - psz)
    (pAv1 : AvoidList (GET hm (bp - psz))
      [bp - DSIZE, bp - WSIZE, bp - psz - WSIZE])
    (pAv2 : AvoidList (GET hm (bp - psz) + WSIZE)
      [bp - DSIZE, bp - WSIZE, bp - psz - WSIZE])
    (pAv3 : AvoidList (GET hm (bp - psz + WSIZE))
      [bp - DSIZE, bp - WSIZE, bp - psz - WSIZE]) :
    coalesce hm bp =
      (bp - psz, PUT (PUT (free_list_remove hm (bp - psz))
        (bp + size - DSIZE) (size + psz)) (bp - psz - WSIZE) (size + psz)) := by
  have hDd : DSIZE = 8 := rfl
  have hWd : WSIZE = 4 := rfl
  have eP : PREV_BLKP hm bp = bp - psz := by
    unfold PREV_BLKP
    rw [g1]
  have eN : NEXT_BLKP hm bp = bp + size := by
    unfold NEXT_BLKP HDRP
    rw [g0]
  have eF : FTRP hm (bp - psz) = bp - DSIZE := by
    unfold FTRP HDRP
    rw [g2]
    omega
  have hc1 : ¬ (GET_ALLOC hm (bp - DSIZE) ≠ 0 ∧
      GET_ALLOC hm (bp + size - WSIZE) ≠ 0) := fun hc => hc.1 hpa
  have hc2 : ¬ (GET_ALLOC hm (bp - DSIZE) ≠ 0 ∧
      GET_ALLOC hm (bp + size - WSIZE) = 0) := fun hc => hc.1 hpa
  have fb1 : GET_SIZE (free_list_remove hm (bp - psz)) (bp - DSIZE) = psz := by
    rw [GET_SIZE_remove_outside hm (bp - psz) (bp - DSIZE) p1 p2 p3
      (by omega) (by omega)
      (Ne.symm (pAv1 _ (by simp))) (Ne.symm (pAv2 _ (by simp)))
      (Ne.symm (pAv3 _ (by simp)))]
    exact g1
  have fb2 : GET_SIZE (free_list_remove hm (bp - psz)) (bp - psz - WSIZE)
      = psz := by
    rw [GET_SIZE_remove_outside hm (bp - psz) (bp - psz - WSIZE) p1 p2 p3
      (by omega) (by omega)
      (Ne.symm (pAv1 _ (by simp))) (Ne.symm (pAv2 _ (by simp)))
      (Ne.symm (pAv3 _ (by simp)))]
    exact g2
  have fb3 : GET_SIZE (free_list_remove hm (bp - psz)) (bp - WSIZE) = size := by
    rw [GET_SIZE_remove_outside hm (bp - psz) (bp - WSIZE) p1 p2 p3
      (by omega) (by omega)
      (Ne.symm (pAv1 _ (by simp))) (Ne.symm (pAv2 _ (by simp)))
      (Ne.symm (pAv3 _ (by simp)))]
    exact g0
  have eP1 : PREV_BLKP (free_list_remove hm (bp - psz)) bp = bp - psz := by
    unfold PREV_BLKP
    rw [fb1]
  have eFb : FTRP (free_list_remove hm (bp - psz)) bp = bp + size - DSIZE := by
    unfold FTRP HDRP
    rw [fb3]
  simp only [coalesce, HDRP, PACK_zero]
  rw [eP, eN, eF, g0]
  rw [if_neg hc1, if_neg hc2, if_pos ⟨hpa, hna⟩]
  rw [eP1, fb2, Nat.mod_eq_of_lt hw, eFb]
  have eP2 : PREV_BLKP (PUT (free_list_remove hm (bp - psz))
      (bp + size - DSIZE) (size + psz)) bp = bp - psz := by
    unfold PREV_BLKP
    rw [GET_SIZE_PUT_ne _ _ _ _ (by omega), fb1]
  rw [eP2]
  have eP3 : PREV_BLKP (PUT (PUT (free_list_remove hm (bp - psz))
      (bp + size - DSIZE) (size + psz)) (bp - psz - WSIZE) (size + psz)) bp
      = bp - psz := by
    unfold PREV_BLKP
    rw [GET_SIZE_PUT_ne _ _ _ _ (by omega), GET_SIZE_PUT_ne _ _ _ _ (by omega),
      fb1]
  rw [eP3]

/-- `coalesce`, case 4: both neighbours free — both are removed from the
index, the three sizes are summed, and the merged block starts at the
previous block's address. -/
theorem coalesce_case4 (hm : Heap) (bp size psz nsz : Nat)
    (g0 : GET_SIZE hm (bp - WSIZE) = size)
    (g1 : GET_SIZE hm (bp - DSIZE) = psz)
    (g2 : GET_SIZE hm (bp - psz - WSIZE) = psz)
    (g5 : GET_SIZE hm (bp + size - WSIZE) = nsz)
    (g6 : GET_SIZE hm (bp + size + nsz - DSIZE) = nsz)
    (h16 : 16 ≤ size) (hp16 : 16 ≤ psz) (hn16 : 16 ≤ nsz)
    (hpb : psz + DSIZE ≤ bp)
    (hw : size + psz + nsz < W32)
    (hpa : GET_ALLOC hm (bp - DSIZE) = 0)
    (hna : GET_ALLOC hm (bp + size - WSIZE) = 0)
    (n1 : GET hm (bp + size) ≠ bp + size)
    (n2 : GET hm (bp + size) ≠ bp + size + WSIZE)
    (n3 : GET hm (bp + size) + WSIZE ≠ bp + size)
    (nAv1 : AvoidList (GET hm (bp + size))
      [bp - DSIZE, bp - WSIZE, bp - psz - WSIZE, bp + size - WSIZE,
       bp + size + nsz - DSIZE])
    (nAv2 : AvoidList (GET hm (bp + size) + WSIZE)
      [bp - DSIZE, bp - WSIZE, bp - psz - WSIZE, bp + size - WSIZE,
       bp + size + nsz - DSIZE])
    (nAv3 : AvoidList (GET hm (bp + size + WSIZE))
      [bp - DSIZE, bp - WSIZE, bp - psz - WSIZE, bp + size - WSIZE,
       bp + size + nsz - DSIZE])
    (p1 : GET hm (bp - psz) ≠ bp - psz)
    (p2 : GET hm (bp - psz) ≠ bp - psz + WSIZE)
    (p3 : GET hm (bp - psz) + WSIZE ≠ bp - psz)
    (pAv1 : AvoidList (GET hm (bp - psz))
      [bp - DSIZE, bp - WSIZE, bp - psz - WSIZE, bp + size - WSIZE,
       bp + size + nsz - DSIZE, bp + size, bp + size + WSIZE])
    (pAv2 : AvoidList (GET hm (bp - psz) + WSIZE)
      [bp - DSIZE, bp - WSIZE, bp - psz - WSIZE, bp + size - WSIZE,
       bp + size + nsz - DSIZE, bp + size, bp + size + WSIZE])
    (pAv3 : AvoidList (GET hm (bp - psz + WSIZE))
      [bp - DSIZE, bp - WSIZE, bp - psz - WSIZE, bp + size - WSIZE,
       bp + size + nsz - DSIZE, bp + size, bp + size + WSIZE]) :
    coalesce hm bp =
      (bp - psz, PUT (PUT (free_list_remove (free_list_remove hm (bp - psz))
          (bp + size)) (bp - psz - WSIZE) (size + psz + nsz))
        (bp + size + nsz - DSIZE) (size + psz + nsz)) := by
  have hDd : DSIZE = 8 := rfl
  have hWd : WSIZE = 4 := rfl
  have eP : PREV_BLKP hm bp = bp - psz := by
    unfold PREV_BLKP
    rw [g1]
  have eN : NEXT_BLKP hm bp = bp + size := by
    unfold NEXT_BLKP HDRP
    rw [g0]
  have eF : FTRP hm (bp - psz) = bp - DSIZE := by
    unfold FTRP HDRP
    rw [g2]
    omega
  have hc1 : ¬ (GET_ALLOC hm (bp - DSIZE) ≠ 0 ∧
      GET_ALLOC hm (bp + size - WSIZE) ≠ 0) := fun hc => hc.1 hpa
  have hc2 : ¬ (GET_ALLOC hm (bp - DSIZE) ≠ 0 ∧
      GET_ALLOC hm (bp + size - WSIZE) = 0) := fun hc => hc.1 hpa
  have hc3 : ¬ (GET_ALLOC hm (bp - DSIZE) = 0 ∧
      GET_ALLOC hm (bp + size - WSIZE) ≠ 0) := fun hc => hc.2 hna
  -- frame over the removal of the previous block
  have frp : ∀ c : Nat, c ≠ bp - psz → c ≠ bp - psz + WSIZE →
      c ≠ GET hm (bp - psz) → c ≠ GET hm (bp - psz) + WSIZE →
      c ≠ GET hm (bp - psz + WSIZE) →
      GET_SIZE (free_list_remove hm (bp - psz)) c = GET_SIZE hm c :=
    fun c hd1 hd2 hd3 hd4 hd5 =>
      GET_SIZE_remove_outside hm (bp - psz) c p1 p2 p3 hd1 hd2 hd3 hd4 hd5
  have fb3 : GET_SIZE (free_list_remove hm (bp - psz)) (bp - WSIZE) = size := by
    rw [frp _ (by omega) (by omega) (Ne.symm (pAv1 _ (by simp)))
      (Ne.symm (pAv2 _ (by simp))) (Ne.symm (pAv3 _ (by simp)))]
    exact g0
  have eN1 : NEXT_BLKP (free_list_remove hm (bp - psz)) bp = bp + size := by
    unfold NEXT_BLKP HDRP
    rw [fb3]
  -- the next block's links survive the removal of the previous block
  have gpn1 : GET (free_list_remove hm (bp - psz)) (bp + size) =
      GET hm (bp + size) :=
    free_list_remove_outside hm (bp - psz) (bp + size) p1 p2 p3
      (by omega) (by omega)
      (Ne.symm (pAv1 _ (by simp))) (Ne.symm (pAv2 _ (by simp)))
      (Ne.symm (pAv3 _ (by simp)))
  have gsn1 : GET (free_list_remove hm (bp - psz)) (bp + size + WSIZE) =
      GET hm (bp + size + WSIZE) :=
    free_list_remove_outside hm (bp - psz) (bp + size + WSIZE) p1 p2 p3
      (by omega) (by omega)
      (Ne.symm (pAv1 _ (by simp))) (Ne.symm (pAv2 _ (by simp)))
      (Ne.symm (pAv3 _ (by simp)))
  -- frame over the removal of the next block
  have frn : ∀ c : Nat, c ≠ bp + size → c ≠ bp + size + WSIZE →
      c ≠ GET hm (bp + size) → c ≠ GET hm (bp + size) + WSIZE →
      c ≠ GET hm (bp + size + WSIZE) →
      GET_SIZE (free_list_remove (free_list_remove hm (bp - psz)) (bp + size)) c
        = GET_SIZE (free_list_remove hm (bp - psz)) c := by
    intro c hd1 hd2 hd3 hd4 hd5
    exact GET_SIZE_remove_outside _ (bp + size) c
      (by rw [gpn1]; exact n1) (by rw [gpn1]; exact n2) (by rw [gpn1]; exact n3)
      hd1 hd2 (by rw [gpn1]; exact hd3) (by rw [gpn1]; exact hd4)
      (by rw [gsn1]; exact hd5)
  have q1 : GET_SIZE (free_list_remove (free_list_remove hm (bp - psz))
      (bp + size)) (bp - DSIZE) = psz := by
    rw [frn _ (by omega) (by omega) (Ne.symm (nAv1 _ (by simp)))
      (Ne.symm (nAv2 _ (by simp))) (Ne.symm (nAv3 _ (by simp)))]
    rw [frp _ (by omega) (by omega) (Ne.symm (pAv1 _ (by simp)))
      (Ne.symm (pAv2 _ (by simp))) (Ne.symm (pAv3 _ (by simp)))]
    exact g1
  have q2 : GET_SIZE (free_list_remove (free_list_remove hm (bp - psz))
      (bp + size)) (bp - psz - WSIZE) = psz := by
    rw [frn _ (by omega) (by omega) (Ne.symm (nAv1 _ (by simp)))
      (Ne.symm (nAv2 _ (by simp))) (Ne.symm (nAv3 _ (by simp)))]
    rw [frp _ (by omega) (by omega) (Ne.symm (pAv1 _ (by simp)))
      (Ne.symm (pAv2 _ (by simp))) (Ne.symm (pAv3 _ (by simp)))]
    exact g2
  have q3 : GET_SIZE (free_list_remove (free_list_remove hm (bp - psz))
      (bp + size)) (bp - WSIZE) = size := by
    rw [frn _ (by omega) (by omega) (Ne.symm (nAv1 _ (by simp)))
      (Ne.symm (nAv2 _ (by simp))) (Ne.symm (nAv3 _ (by simp)))]
    exact fb3
  have q4 : GET_SIZE (free_list_remove (free_list_remove hm (bp - psz))
      (bp + size)) (bp + size - WSIZE) = nsz := by
    rw [frn _ (by omega) (by omega) (Ne.symm (nAv1 _ (by simp)))
      (Ne.symm (nAv2 _ (by simp))) (Ne.symm (nAv3 _ (by simp)))]
    rw [frp _ (by omega) (by omega) (Ne.symm (pAv1 _ (by simp)))
      (Ne.symm (pAv2 _ (by simp))) (Ne.symm (pAv3 _ (by simp)))]
    exact g5
  have q5 : GET_SIZE (free_list_remove (free_list_remove hm (bp - psz))
      (bp + size)) (bp + size + nsz - DSIZE) = nsz := by
    rw [frn _ (by omega) (by omega) (Ne.symm (nAv1 _ (by simp)))
      (Ne.symm (nAv2 _ (by simp))) (Ne.symm (nAv3 _ (by simp)))]
    rw [frp _ (by omega) (by omega) (Ne.symm (pAv1 _ (by simp)))
      (Ne.symm (pAv2 _ (by simp))) (Ne.symm (pAv3 _ (by simp)))]
    exact g6
  have eP2 : PREV_BLKP (free_list_remove (free_list_remove hm (bp - psz))
      (bp + size)) bp = bp - psz := by
    unfold PREV_BLKP
    rw [q1]
  have eN2 : NEXT_BLKP (free_list_remove (free_list_remove hm (bp - psz))
      (bp + size)) bp = bp + size := by
    unfold NEXT_BLKP HDRP
    rw [q3]
  have eF2 : FTRP (free_list_remove (free_list_remove hm (bp - psz))
      (bp + size)) (bp + size) = bp + size + nsz - DSIZE := by
    unfold FTRP HDRP
    rw [q4]
  simp only [coalesce, HDRP, PACK_zero]
  rw [eP, eN, eF, g0]
  rw [if_neg hc1, if_neg hc2, if_neg hc3]
  rw [eN1, eP2, eN2, eF2, q2, q5, Nat.mod_eq_of_lt hw]
  have eN3 : NEXT_BLKP (PUT (free_list_remove (free_list_remove hm (bp - psz))
      (bp + size)) (bp - psz - WSIZE) (size + psz + nsz)) bp = bp + size := by
    unfold NEXT_BLKP HDRP
    rw [GET_SIZE_PUT_ne _ _ _ _ (by omega), q3]
  rw [eN3]
  have eF3 : FTRP (PUT (free_list_remove (free_list_remove hm (bp - psz))
      (bp + size)) (bp - psz - WSIZE) (size + psz + nsz)) (bp + size) =
      bp + size + nsz - DSIZE := by
    unfold FTRP HDRP
    rw [GET_SIZE_PUT_ne _ _ _ _ (by omega), q4]
  rw [eF3]
  have eP4 : PREV_BLKP (PUT (PUT (free_list_remove (free_list_remove hm
      (bp - psz)) (bp + size)) (bp - psz - WSIZE) (size + psz + nsz))
      (bp + size + nsz - DSIZE) (size + psz + nsz)) bp = bp - psz := by
    unfold PREV_BLKP
    rw [GET_SIZE_PUT_ne _ _ _ _ (by omega), GET_SIZE_PUT_ne _ _ _ _ (by omega),
      q1]
  rw [eP4]

set_option maxHeartbeats 2000000 in
/-- C6: `mm_free` equals the spec-side `release`: mark the block free and
clear its links, then the four-way merge decided by the neighbours'
allocated bits — absorbed neighbours are removed from the index, the
previous block's address is kept when it is absorbed, and exactly one
insertion ends the operation.  The hypotheses state that the block and
its neighbours carry consistent boundary tags and that the neighbours'
stored links do not alias the handful of cells `release` reads or
writes. -/
theorem mm_free_follows_spec (h : Heap) (bp size psz nsz : Nat)
    (hsz : GET_SIZE h (HDRP bp) = size)
    (hpsz : GET_SIZE h (bp - DSIZE) = psz)
    (hnsz : GET_SIZE h (bp + size - WSIZE) = nsz)
    (hbp : DSIZE ≤ bp) (hpb : psz + DSIZE ≤ bp)
    (h16 : 16 ≤ size) (hp8 : 8 ≤ psz)
    (hpagree : GET_SIZE h (bp - psz - WSIZE) = psz)
    (hw : size + psz + nsz < W32)
    (hpfree : GET_ALLOC h (bp - DSIZE) = 0 → 16 ≤ psz)
    (hnfree : GET_ALLOC h (bp + size - WSIZE) = 0 → 16 ≤ nsz)
    (hnagree : GET_ALLOC h (bp + size - WSIZE) = 0 →
      GET_SIZE h (bp + size + nsz - DSIZE) = nsz)
    (hnl : GET_ALLOC h (bp + size - WSIZE) = 0 →
      GET h (bp + size) ≠ bp + size ∧
      GET h (bp + size) ≠ bp + size + WSIZE ∧
      GET h (bp + size) + WSIZE ≠ bp + size ∧
      AvoidList (GET h (bp + size))
        [bp - DSIZE, bp - WSIZE, bp - psz - WSIZE, bp + size - WSIZE,
         bp + size + nsz - DSIZE] ∧
      AvoidList (GET h (bp + size) + WSIZE)
        [bp - DSIZE, bp - WSIZE, bp - psz - WSIZE, bp + size - WSIZE,
         bp + size + nsz - DSIZE] ∧
      AvoidList (GET h (bp + size + WSIZE))
        [bp - DSIZE, bp - WSIZE, bp - psz - WSIZE, bp + size - WSIZE,
         bp + size + nsz - DSIZE])
    (hpl : GET_ALLOC h (bp - DSIZE) = 0 →
      GET h (bp - psz) ≠ bp - psz ∧
      GET h (bp - psz) ≠ bp - psz + WSIZE ∧
      GET h (bp - psz) + WSIZE ≠ bp - psz ∧
      AvoidList (GET h (bp - psz))
        [bp - DSIZE, bp - WSIZE, bp - psz - WSIZE, bp + size - WSIZE,
         bp + size + nsz - DSIZE, bp + size, bp + size + WSIZE] ∧
      AvoidList (GET h (bp - psz) + WSIZE)
        [bp - DSIZE, bp - WSIZE, bp - psz - WSIZE, bp + size - WSIZE,
         bp + size + nsz - DSIZE, bp + size, bp + size + WSIZE] ∧
      AvoidList (GET h (bp - psz + WSIZE))
        [bp - DSIZE, bp - WSIZE, bp - psz - WSIZE, bp + size - WSIZE,
         bp + size + nsz - DSIZE, bp + size, bp + size + WSIZE]) :
    mm_free h bp = releaseSpec h bp := by
  simp only [HDRP] at hsz
  have hs8 : size % 8 = 0 := by rw [← hsz]; exact GET_SIZE_mod8 h _
  have hp8m : psz % 8 = 0 := by rw [← hpsz]; exact GET_SIZE_mod8 h _
  have hn8 : nsz % 8 = 0 := by rw [← hnsz]; exact GET_SIZE_mod8 h _
  have hsw : size < W32 := by rw [← hsz]; exact GET_SIZE_lt h _
  have hW32 : W32 = 4294967296 := rfl
  have hWd : WSIZE = 4 := rfl
  have hDd : DSIZE = 8 := rfl
  simp only [mm_free, releaseSpec, put_head_foot, put, HDRP, PACK_zero]
  rw [hsz, hpsz]
  rw [hnsz]
  have e1 : FTRP (PUT h (bp - WSIZE) size) bp = bp + size - DSIZE := by
    unfold FTRP HDRP
    rw [GET_SIZE_PUT_self _ _ _ hsw]
    omega
  rw [e1]
  generalize hh3 : PUT (PUT (PUT (PUT h (bp - WSIZE) size) (bp + size - DSIZE)
    size) bp 0) (bp + WSIZE) 0 = h3
  -- reads from the marked heap h3
  have g0 : GET_SIZE h3 (bp - WSIZE) = size := by
    rw [← hh3]
    rw [GET_SIZE_PUT_ne _ _ _ _ (by omega), GET_SIZE_PUT_ne _ _ _ _ (by omega),
      GET_SIZE_PUT_ne _ _ _ _ (by omega), GET_SIZE_PUT_self _ _ _ hsw]
    omega
  have g1 : GET_SIZE h3 (bp - DSIZE) = psz := by
    rw [← hh3]
    rw [GET_SIZE_PUT_ne _ _ _ _ (by omega), GET_SIZE_PUT_ne _ _ _ _ (by omega),
      GET_SIZE_PUT_ne _ _ _ _ (by omega), GET_SIZE_PUT_ne _ _ _ _ (by omega)]
    exact hpsz
  have g2 : GET_SIZE h3 (bp - psz - WSIZE) = psz := by
    rw [← hh3]
    rw [GET_SIZE_PUT_ne _ _ _ _ (by omega), GET_SIZE_PUT_ne _ _ _ _ (by omega),
      GET_SIZE_PUT_ne _ _ _ _ (by omega), GET_SIZE_PUT_ne _ _ _ _ (by omega)]
    exact hpagree
  have g3 : GET_ALLOC h3 (bp - DSIZE) = GET_ALLOC h (bp - DSIZE) := by
    rw [← hh3]
    rw [GET_ALLOC_PUT_ne _ _ _ _ (by omega), GET_ALLOC_PUT_ne _ _ _ _ (by omega),
      GET_ALLOC_PUT_ne _ _ _ _ (by omega), GET_ALLOC_PUT_ne _ _ _ _ (by omega)]
  have g4 : GET_ALLOC h3 (bp + size - WSIZE) = GET_ALLOC h (bp + size - WSIZE) := by
    rw [← hh3]
    rw [GET_ALLOC_PUT_ne _ _ _ _ (by omega), GET_ALLOC_PUT_ne _ _ _ _ (by omega),
      GET_ALLOC_PUT_ne _ _ _ _ (by omega), GET_ALLOC_PUT_ne _ _ _ _ (by omega)]
  have g5 : GET_SIZE h3 (bp + size - WSIZE) = nsz := by
    rw [← hh3]
    rw [GET_SIZE_PUT_ne _ _ _ _ (by omega), GET_SIZE_PUT_ne _ _ _ _ (by omega),
      GET_SIZE_PUT_ne _ _ _ _ (by omega), GET_SIZE_PUT_ne _ _ _ _ (by omega)]
    exact hnsz
  by_cases hpa : GET_ALLOC h (bp - DSIZE) = 0 <;>
    by_cases hna : GET_ALLOC h (bp + size - WSIZE) = 0
  · -- case 4: both neighbours free
    have hp16 : 16 ≤ psz := hpfree hpa
    have hn16 : 16 ≤ nsz := hnfree hna
    have hnag : GET_SIZE h (bp + size + nsz - DSIZE) = nsz := hnagree hna
    obtain ⟨n1, n2, n3, nA1, nA2, nA3⟩ := hnl hna
    obtain ⟨p1, p2, p3, pA1, pA2, pA3⟩ := hpl hpa
    clear hnl hpl hnagree hnfree hpfree
    have g6 : GET_SIZE h3 (bp + size + nsz - DSIZE) = nsz := by
      rw [← hh3]
      rw [GET_SIZE_PUT_ne _ _ _ _ (by omega), GET_SIZE_PUT_ne _ _ _ _ (by omega),
        GET_SIZE_PUT_ne _ _ _ _ (by omega), GET_SIZE_PUT_ne _ _ _ _ (by omega)]
      exact hnag
    have gpp : GET h3 (bp - psz) = GET h (bp - psz) := by
      rw [← hh3]
      rw [GET_PUT_ne _ _ _ _ (by omega), GET_PUT_ne _ _ _ _ (by omega),
        GET_PUT_ne _ _ _ _ (by omega), GET_PUT_ne _ _ _ _ (by omega)]
    have gsp : GET h3 (bp - psz + WSIZE) = GET h (bp - psz + WSIZE) := by
      rw [← hh3]
      rw [GET_PUT_ne _ _ _ _ (by omega), GET_PUT_ne _ _ _ _ (by omega),
        GET_PUT_ne _ _ _ _ (by omega), GET_PUT_ne _ _ _ _ (by omega)]
    have gpn : GET h3 (bp + size) = GET h (bp + size) := by
      rw [← hh3]
      rw [GET_PUT_ne _ _ _ _ (by omega), GET_PUT_ne _ _ _ _ (by omega),
        GET_PUT_ne _ _ _ _ (by omega), GET_PUT_ne _ _ _ _ (by omega)]
    have gsn : GET h3 (bp + size + WSIZE) = GET h (bp + size + WSIZE) := by
      rw [← hh3]
      rw [GET_PUT_ne _ _ _ _ (by omega), GET_PUT_ne _ _ _ _ (by omega),
        GET_PUT_ne _ _ _ _ (by omega), GET_PUT_ne _ _ _ _ (by omega)]
    have hcoal := coalesce_case4 h3 bp size psz nsz g0 g1 g2 g5 g6
      h16 hp16 hn16 hpb hw
      (by rw [g3]; exact hpa) (by rw [g4]; exact hna)
      (by rw [gpn]; exact n1) (by rw [gpn]; exact n2) (by rw [gpn]; exact n3)
      (by rw [gpn]; exact nA1) (by rw [gpn]; exact nA2) (by rw [gsn]; exact nA3)
      (by rw [gpp]; exact p1) (by rw [gpp]; exact p2) (by rw [gpp]; exact p3)
      (by rw [gpp]; exact pA1) (by rw [gpp]; exact pA2) (by rw [gsp]; exact pA3)
    rw [hcoal]
    have hc1 : ¬ (GET_ALLOC h (bp - DSIZE) ≠ 0 ∧
        GET_ALLOC h (bp + size - WSIZE) ≠ 0) := fun hc => hc.1 hpa
    have hc2 : ¬ (GET_ALLOC h (bp - DSIZE) ≠ 0 ∧
        GET_ALLOC h (bp + size - WSIZE) = 0) := fun hc => hc.1 hpa
    have hc3 : ¬ (GET_ALLOC h (bp - DSIZE) = 0 ∧
        GET_ALLOC h (bp + size - WSIZE) ≠ 0) := fun hc => hc.2 hna
    rw [if_neg hc1, if_neg hc2, if_neg hc3]
  · -- case 3: only the previous block free
    have hp16 : 16 ≤ psz := hpfree hpa
    obtain ⟨p1, p2, p3, pA1, pA2, pA3⟩ := hpl hpa
    clear hnl hpl hnagree hnfree hpfree
    have gpp : GET h3 (bp - psz) = GET h (bp - psz) := by
      rw [← hh3]
      rw [GET_PUT_ne _ _ _ _ (by omega), GET_PUT_ne _ _ _ _ (by omega),
        GET_PUT_ne _ _ _ _ (by omega), GET_PUT_ne _ _ _ _ (by omega)]
    have gsp : GET h3 (bp - psz + WSIZE) = GET h (bp - psz + WSIZE) := by
      rw [← hh3]
      rw [GET_PUT_ne _ _ _ _ (by omega), GET_PUT_ne _ _ _ _ (by omega),
        GET_PUT_ne _ _ _ _ (by omega), GET_PUT_ne _ _ _ _ (by omega)]
    have hcoal := coalesce_case3 h3 bp size psz g0 g1 g2 h16 hp16 hpb
      (by omega)
      (by rw [g3]; exact hpa) (by rw [g4]; exact hna)
      (by rw [gpp]; exact p1) (by rw [gpp]; exact p2) (by rw [gpp]; exact p3)
      (by rw [gpp]; intro c hc; exact pA1 _ (by simp at hc ⊢; tauto))
      (by rw [gpp]; intro c hc; exact pA2 _ (by simp at hc ⊢; tauto))
      (by rw [gsp]; intro c hc; exact pA3 _ (by simp at hc ⊢; tauto))
    rw [hcoal]
    have hc1 : ¬ (GET_ALLOC h (bp - DSIZE) ≠ 0 ∧
        GET_ALLOC h (bp + size - WSIZE) ≠ 0) := fun hc => hc.1 hpa
    have hc2 : ¬ (GET_ALLOC h (bp - DSIZE) ≠ 0 ∧
        GET_ALLOC h (bp + size - WSIZE) = 0) := fun hc => hc.1 hpa
    rw [if_neg hc1, if_neg hc2, if_pos ⟨hpa, hna⟩]
  · -- case 2: only the next block free
    have hn16 : 16 ≤ nsz := hnfree hna
    obtain ⟨n1, n2, n3, nA1, nA2, nA3⟩ := hnl hna
    clear hnl hpl hnagree hnfree hpfree
    have gpn : GET h3 (bp + size) = GET h (bp + size) := by
      rw [← hh3]
      rw [GET_PUT_ne _ _ _ _ (by omega), GET_PUT_ne _ _ _ _ (by omega),
        GET_PUT_ne _ _ _ _ (by omega), GET_PUT_ne _ _ _ _ (by omega)]
    have gsn : GET h3 (bp + size + WSIZE) = GET h (bp + size + WSIZE) := by
      rw [← hh3]
      rw [GET_PUT_ne _ _ _ _ (by omega), GET_PUT_ne _ _ _ _ (by omega),
        GET_PUT_ne _ _ _ _ (by omega), GET_PUT_ne _ _ _ _ (by omega)]
    have hcoal := coalesce_case2 h3 bp size psz nsz g0 g1 g2 g5 h16 hpb
      hs8 hn8 (by omega)
      (by rw [g3]; exact hpa) (by rw [g4]; exact hna)
      (by rw [gpn]; exact n1) (by rw [gpn]; exact n2) (by rw [gpn]; exact n3)
      (by rw [gpn]; intro c hc; exact nA1 _ (by simp at hc ⊢; tauto))
      (by rw [gpn]; intro c hc; exact nA2 _ (by simp at hc ⊢; tauto))
      (by rw [gsn]; intro c hc; exact nA3 _ (by simp at hc ⊢; tauto))
    rw [hcoal]
    have hc1 : ¬ (GET_ALLOC h (bp - DSIZE) ≠ 0 ∧
        GET_ALLOC h (bp + size - WSIZE) ≠ 0) := fun hc => hc.2 hna
    rw [if_neg hc1, if_pos ⟨hpa, hna⟩]
  · -- case 1: both neighbours allocated
    have hcoal := coalesce_case1 h3 bp size psz g0 g1 g2 hpb
      (by rw [g3]; exact hpa) (by rw [g4]; exact hna)
    rw [hcoal]
    rw [if_pos ⟨hpa, hna⟩]

/-- C6 witness: in the heap `hA` (one 100-byte allocation after `mm_init`),
freeing the allocated block at 88 — previous neighbour the allocated
prologue, next neighbour the free remainder block — satisfies all the
side conditions, and `mm_free` agrees with the spec-side release. -/
theorem mm_free_follows_spec_witness :
    GET_SIZE hA (HDRP 88) = 112 ∧ mm_free hA 88 = releaseSpec hA 88 :=
  ⟨by decide, mm_free_follows_spec hA 88 112 8 3984 (by decide) (by decide)
    (by decide) (by decide) (by decide) (by decide) (by decide) (by decide)
    (by decide) (by decide) (by decide) (by decide) (by decide) (by decide)⟩

end MM
